import Mathlib

/-!
# Window manager and AI-service embedding

A shallow embedding of the window-manager state machine of the repository's
orchestrator component (source file `src/unnamed/part_000`) and of the
credential-rotation request loop of `src/utils/aiService.tsx`.

Modelling conventions for the React component:

* The component's `useState` cells form one record, `OSState`.
* Each operation is embedded as a pure `OSState → OSState` function.  Inside one
  event-handler invocation, plain reads of state variables see the values
  captured by the handler's closure (the state at entry), while the queued
  `setX(...)` updates are applied afterwards, in issue order; an update
  issued while another update function is running (the `focusWindow` calls
  made inside `toggleMinimize`'s `setWindows` updater) is applied after all
  updates issued by the handler body itself.  Each definition below is the
  net effect of the handler under these rules.
* Geometry is modelled with `Int` (the source uses JS numbers; no claim
  depends on fractional coordinates).
* Window ids are the source's strings (`"win-0"`, ...).
-/

/-- Saved geometry snapshot (`preMaximizedState` in the source). -/
structure PreMaxState where
  x : Int
  y : Int
  width : Int
  height : Int
deriving DecidableEq, Repr

/-- One open window (`WindowInstance` in the source; presentation-only
fields `title`, `icon`, `component` are carried or dropped as noted). -/
structure WindowInstance where
  id : String
  appId : String
  title : String
  x : Int
  y : Int
  width : Int
  height : Int
  zIndex : Nat
  isMinimized : Bool
  isMaximized : Bool
  isFullScreen : Bool
  preMaximizedState : Option PreMaxState := none
  filePath : Option String := none
deriving DecidableEq, Repr

/-- An application definition from the static catalog (`AppDefinition`). -/
structure AppDefinition where
  id : String
  name : String
  defaultSize : Option (Int × Int) := none
  allowMultiInstance : Bool := false
deriving DecidableEq, Repr

/-- The `useState` cells of the orchestrator component that the window
manager operates on. -/
structure OSState where
  windows : List WindowInstance
  activeWindowId : Option String
  nextZIndex : Nat
  launchpadOpen : Bool
  nextWindowId : Nat
  fullScreenWindowId : Option String
  windowPairs : List (List String)
  pairingWindowId : Option String
deriving DecidableEq, Repr

/-- The component's initial state (`useState` initial values). -/
def initState : OSState :=
  { windows := []
    activeWindowId := none
    nextZIndex := 10
    launchpadOpen := false
    nextWindowId := 0
    fullScreenWindowId := none
    windowPairs := []
    pairingWindowId := none }

/-- `focusWindow(id)` (source lines 54-66): no-op when `id` is already the
active window and the launchpad is closed; otherwise cancel any pending
pairing, close the launchpad, activate `id`, give it the current
`nextZIndex` and increment the counter. -/
def focusWindow (id : String) (s : OSState) : OSState :=
  if s.activeWindowId = some id ∧ s.launchpadOpen = false then s
  else
    { s with
      pairingWindowId := none
      launchpadOpen := false
      activeWindowId := some id
      windows := s.windows.map fun win =>
        if win.id == id then { win with zIndex := s.nextZIndex } else win
      nextZIndex := s.nextZIndex + 1 }

/-- The reducer of source lines 98 and 164:
`(prev, current) => prev.zIndex > current.zIndex ? prev : current`. -/
def topStep (prev current : WindowInstance) : WindowInstance :=
  if prev.zIndex > current.zIndex then prev else current

/-- The source's `remainingWindows.reduce(...)` over a nonempty list: the
window of greatest `zIndex`, the LAST one winning ties (`reduce` keeps
`prev` only when strictly greater). -/
def lastTop (l : List WindowInstance) : Option WindowInstance :=
  match l with
  | [] => none
  | h :: t => some (t.foldl topStep h)

/-- `win => ({ ...win, isMinimized: !win.isMinimized, isFullScreen: false })`
(source line 89). -/
def flipMin (win : WindowInstance) : WindowInstance :=
  { win with isMinimized := !win.isMinimized, isFullScreen := false }

/-- One iteration of the `forEach` inside `toggleMinimize`'s `setWindows`
updater (source lines 76-91).  The accumulator carries the updater's local
`wins`, the ids routed through a non-early-returning `focusWindow` (in
call order), and whether `setFullScreenWindowId(null)` was issued.
`focusWindow`'s early-return guard reads the handler closure's
`activeWindowId`/`launchpadOpen`, i.e. the entry state `s`. -/
def minimizeFold (s : OSState) (acc : List WindowInstance × List String × Bool)
    (winId : String) : List WindowInstance × List String × Bool :=
  match acc.1.find? (fun w => w.id == winId) with
  | none => acc
  | some w =>
    let focused :=
      if w.isMinimized ∧ ¬(s.activeWindowId = some winId ∧ s.launchpadOpen = false)
      then acc.2.1 ++ [winId] else acc.2.1
    let fsCleared := acc.2.2 || w.isFullScreen
    (acc.1.map fun win => if win.id == winId then flipMin win else win,
     focused, fsCleared)

/-- The affected group: the first pair containing `id`, else `[id]`
(source pattern `windowPairs.find(p => p.includes(id)) || [id]`, used
identically at lines 69-70, 151-152 and 211/218). -/
def pairGroup (s : OSState) (id : String) : List String :=
  (s.windowPairs.find? (fun p => p.contains id)).getD [id]

/-- The run of `toggleMinimize`'s updater over the whole group. -/
def minimizeRun (s : OSState) (id : String) : List WindowInstance × List String × Bool :=
  (pairGroup s id).foldl (minimizeFold s) (s.windows, [], false)

/-- The `setWindows` map issued by a `focusWindow(fid)` call made inside
the updater: assign the closure's `nextZIndex` to `fid`.  One such map is
applied per focused id, after the updater's own result. -/
def bumpFold (s : OSState) (ws : List WindowInstance) (fid : String) : List WindowInstance :=
  ws.map fun w => if w.id == fid then { w with zIndex := s.nextZIndex } else w

/-- `toggleMinimize(id)` (source lines 68-104).  The whole pairing group of
`id` (or `id` alone) is toggled; fullscreen members clear the global
fullscreen id; members that were minimized are routed through
`focusWindow`.  The handler's recompute of the active window (lines
95-103) is issued before the `focusWindow` effects spawned inside the
updater, so a focused (un-minimized) member ends up active; each such
member receives the closure's `nextZIndex`, and the counter advances once
per focus. -/
def toggleMinimize (id : String) (s : OSState) : OSState :=
  let idsToToggle := pairGroup s id
  let isMinimizing :=
    match s.windows.find? (fun w => w.id == id) with
    | some w => !w.isMinimized
    | none => false
  let r := minimizeRun s id
  let focusedIds := r.2.1
  let activeAfterHandler :=
    if isMinimizing && idsToToggle.contains (s.activeWindowId.getD "") then
      (lastTop (s.windows.filter fun w =>
        !idsToToggle.contains w.id && !w.isMinimized)).map (·.id)
    else s.activeWindowId
  { s with
    windows := focusedIds.foldl (bumpFold s) r.1
    activeWindowId :=
      match focusedIds.getLast? with
      | some fid => some fid
      | none => activeAfterHandler
    nextZIndex := s.nextZIndex + focusedIds.length
    launchpadOpen := if focusedIds.isEmpty then s.launchpadOpen else false
    pairingWindowId := if focusedIds.isEmpty then s.pairingWindowId else none
    fullScreenWindowId := if r.2.2 then none else s.fullScreenWindowId }

/-- `openApp(app, filePath?)` (source lines 106-148).  `innerW`/`innerH`
stand for `window.innerWidth`/`window.innerHeight`.  The reuse path fires
when some window has this `appId` and the app is not multi-instance; it
delegates to `toggleMinimize`/`focusWindow` and then overwrites the
instance's `filePath` when one was supplied.  Otherwise a new window
`win-<counter>` is created, staggered, assigned `nextZIndex`, and made
active. -/
def openApp (app : AppDefinition) (filePath : Option String)
    (innerW innerH : Int) (s : OSState) : OSState :=
  match s.windows.find? (fun win => win.appId == app.id && !app.allowMultiInstance) with
  | some existingWindow =>
    let s1 := if existingWindow.isMinimized
              then toggleMinimize existingWindow.id s
              else focusWindow existingWindow.id s
    let s2 := { s1 with launchpadOpen := false }
    match filePath with
    | some fp =>
      { s2 with windows := s2.windows.map fun win =>
          if win.id == existingWindow.id then { win with filePath := some fp } else win }
    | none => s2
  | none =>
    let openWindowsCount := (s.windows.filter fun win => !win.isMinimized).length
    let staggerOffset : Int := 25 * (openWindowsCount % 10)
    let defaultWidth := (app.defaultSize.map Prod.fst).getD 720
    let defaultHeight := (app.defaultSize.map Prod.snd).getD 540
    let menuBarHeight : Int := 28
    let newWindow : WindowInstance :=
      { id := "win-" ++ toString s.nextWindowId
        appId := app.id
        title := app.name
        x := innerW / 2 - defaultWidth / 2 + staggerOffset
        y := max (menuBarHeight + 10) ((innerH - defaultHeight) / 2 - 40 + staggerOffset)
        width := defaultWidth
        height := defaultHeight
        zIndex := s.nextZIndex
        isMinimized := false
        isMaximized := false
        isFullScreen := false
        filePath := filePath }
    { s with
      launchpadOpen := false
      windows := s.windows ++ [newWindow]
      activeWindowId := some newWindow.id
      nextZIndex := s.nextZIndex + 1
      nextWindowId := s.nextWindowId + 1 }

/-- `closeWindow(id)` (source lines 150-170): remove the whole pairing
group of `id` (or `id` alone) from the registry, clear the fullscreen id
if a member held it, drop every pair record containing `id`, and if the
active window was closed recompute it over the surviving non-minimized
windows. -/
def closeWindow (id : String) (s : OSState) : OSState :=
  let idsToClose := pairGroup s id
  { s with
    fullScreenWindowId :=
      if idsToClose.any (fun winId => s.fullScreenWindowId == some winId)
      then none else s.fullScreenWindowId
    windows := s.windows.filter fun win => !idsToClose.contains win.id
    windowPairs := s.windowPairs.filter fun p => !p.contains id
    activeWindowId :=
      if idsToClose.contains (s.activeWindowId.getD "") then
        (lastTop (s.windows.filter fun w =>
          !idsToClose.contains w.id && !w.isMinimized)).map (·.id)
      else s.activeWindowId }

/-- The per-window transform of `toggleFullScreen`'s map for the matching
window (source lines 176-186).  Exiting spreads `preMaximizedState` over
the geometry (the snapshot itself is KEPT — a spread does not delete the
property); entering snapshots the current geometry unless the window is
maximized (in which case the existing snapshot is preserved). -/
def fsTransform (win : WindowInstance) : WindowInstance :=
  if win.isFullScreen then
    match win.preMaximizedState with
    | some pm =>
      { win with isFullScreen := false
                 x := pm.x, y := pm.y, width := pm.width, height := pm.height }
    | none => { win with isFullScreen := false }
  else
    { win with isFullScreen := true
               preMaximizedState :=
                 if win.isMaximized then win.preMaximizedState
                 else some ⟨win.x, win.y, win.width, win.height⟩ }

/-- `toggleFullScreen(id)` (source lines 172-190).  Applies `fsTransform`
to the matching window; the `setFullScreenWindowId` calls happen inside
the map, once per window matching `id` (modelled by the fold).  Always
refocuses afterwards. -/
def toggleFullScreen (id : String) (s : OSState) : OSState :=
  let s1 :=
    { s with
      windows := s.windows.map fun win =>
        if win.id == id then fsTransform win else win
      fullScreenWindowId := s.windows.foldl (fun fs win =>
        if win.id == id then (if win.isFullScreen then none else some id) else fs)
        s.fullScreenWindowId }
  focusWindow id s1

/-- The per-window transform of `toggleMaximize`'s map for the matching
window (source lines 196-204).  Restoring reads each geometry field from
`preMaximizedState` with the current field as fallback and clears the
flag (the snapshot itself is KEPT — it is never deleted); maximizing
snapshots the current geometry. -/
def mxTransform (win : WindowInstance) : WindowInstance :=
  if win.isMaximized then
    { win with isMaximized := false
               x := ((win.preMaximizedState.map (·.x)).getD win.x)
               y := ((win.preMaximizedState.map (·.y)).getD win.y)
               width := ((win.preMaximizedState.map (·.width)).getD win.width)
               height := ((win.preMaximizedState.map (·.height)).getD win.height) }
  else
    { win with isMaximized := true
               preMaximizedState := some ⟨win.x, win.y, win.width, win.height⟩ }

/-- `toggleMaximize(id)` (source lines 192-208).  Applies `mxTransform`
to the matching window and always refocuses afterwards. -/
def toggleMaximize (id : String) (s : OSState) : OSState :=
  let s1 :=
    { s with
      windows := s.windows.map fun win =>
        if win.id == id then mxTransform win else win }
  focusWindow id s1

/-- `updateWindowPosition(id, newX, newY)` (source lines 210-228): no-op
when `id` is not in the registry; otherwise move every member of the
first pair containing `id` (or `id` alone) by the delta against the
mover's current position. -/
def updateWindowPosition (id : String) (newX newY : Int) (s : OSState) : OSState :=
  match s.windows.find? (fun w => w.id == id) with
  | none => s
  | some mover =>
    let deltaX := newX - mover.x
    let deltaY := newY - mover.y
    let idsToMove := pairGroup s id
    { s with windows := s.windows.map fun win =>
        if idsToMove.contains win.id then
          { win with x := win.x + deltaX, y := win.y + deltaY }
        else win }

/-- `updateWindowSize(id, w, h)` (source lines 230-236): resize the single
window; pairing does not synchronize resizes. -/
def updateWindowSize (id : String) (newWidth newHeight : Int) (s : OSState) : OSState :=
  { s with windows := s.windows.map fun win =>
      if win.id == id then { win with width := newWidth, height := newHeight } else win }

/-- `startPairing(id)` (source lines 253-260): if a pair contains `id`,
dissolve exactly that record (the source removes it by reference, i.e.
the first pair found); otherwise record `id` as the pending source. -/
def startPairing (id : String) (s : OSState) : OSState :=
  match s.windowPairs.findIdx? (fun p : List String => p.contains id) with
  | some i => { s with windowPairs := s.windowPairs.eraseIdx i }
  | none => { s with pairingWindowId := some id }

/-- `completePairing(targetId)` (source lines 262-272): with a pending
source different from the target, append the target to the first pair
containing the source (replacement by reference in the source), or create
the pair `[source, target]`.  The pending source is cleared
unconditionally. -/
def completePairing (targetId : String) (s : OSState) : OSState :=
  let s1 :=
    match s.pairingWindowId with
    | some src =>
      if src ≠ targetId then
        match s.windowPairs.findIdx? (fun p : List String => p.contains src) with
        | some i =>
          { s with windowPairs :=
              s.windowPairs.set i ((s.windowPairs.getD i []) ++ [targetId]) }
        | none => { s with windowPairs := s.windowPairs ++ [[src, targetId]] }
      else s
    | none => s
  { s1 with pairingWindowId := none }

/-- The dock's launchpad button (`setLaunchpadOpen(prev => !prev)`,
source line 346). -/
def toggleLaunchpad (s : OSState) : OSState :=
  { s with launchpadOpen := !s.launchpadOpen }

/-- The launchpad overlay's own close action (source line 327). -/
def closeLaunchpad (s : OSState) : OSState :=
  { s with launchpadOpen := false }

/-- Clicking empty desktop space cancels a pairing gesture in progress
(source line 329). -/
def desktopClick (s : OSState) : OSState :=
  match s.pairingWindowId with
  | some _ => { s with pairingWindowId := none }
  | none => s

/-!
## AI service (`src/utils/aiService.tsx`)
-/

/-- Error surface of `performRequest`: the distinct offline error (line
24), the missing-configuration error (line 28), the post-loop fallback of
line 51 (unreachable when the key list is nonempty), and an underlying
request error surfaced after exhausting the credential list. -/
inductive AIServiceError (E : Type) where
  | offline
  | noKeys
  | exhausted
  | request (e : E)
deriving DecidableEq, Repr

/-- The `while (attempts < API_KEYS.length)` loop of `performRequest`
(source lines 34-50), recursing on `remaining = API_KEYS.length -
attempts`.  `outcome i` is the result of issuing the request with the
credential at index `i` (with a nonempty key list `getClient` never
returns null, so line 37 cannot fire).  On failure the index rotates to
`(idx + 1) % n` (`rotateKey`, lines 17-20) unless this was the last
allowed attempt, in which case `currentKeyIndex` is reset to the value
captured before the loop and the last error is surfaced.  Returns the
result together with the final `currentKeyIndex`. -/
def requestLoop {E A : Type} (outcome : Nat → Except E A) (n initialKeyIndex : Nat) :
    Nat → Nat → Except (AIServiceError E) A × Nat
  | 0, idx => (Except.error AIServiceError.exhausted, idx)
  | remaining + 1, idx =>
    match outcome idx with
    | Except.ok a => (Except.ok a, idx)
    | Except.error e =>
      if remaining = 0 then (Except.error (AIServiceError.request e), initialKeyIndex)
      else requestLoop outcome n initialKeyIndex remaining ((idx + 1) % n)

/-- `performRequest` (source lines 22-52): short-circuit with the offline
error when no connectivity, fail when no credentials are configured,
otherwise run the rotation loop starting from the current key index
`start` with `n` credentials. -/
def performRequest {E A : Type} (online : Bool) (n start : Nat)
    (outcome : Nat → Except E A) : Except (AIServiceError E) A × Nat :=
  if !online then (Except.error AIServiceError.offline, start)
  else if n = 0 then (Except.error AIServiceError.noKeys, start)
  else requestLoop outcome n start n start

/-!
## Reachability and invariants
-/

/-- States reachable from the component's initial state through the
command surface.  `ok` constrains which application definitions callers
may pass to `openApp`: the always-true predicate gives plain
reachability, and a single-instance restriction is used for the
launch-deduplication claim. -/
inductive ReachableG (ok : AppDefinition → Bool) : OSState → Prop
  | init : ReachableG ok initState
  | open_step {s} (app : AppDefinition) (fp : Option String) (iw ih : Int) :
      ReachableG ok s → ok app = true → ReachableG ok (openApp app fp iw ih s)
  | close_step {s} (id : String) : ReachableG ok s → ReachableG ok (closeWindow id s)
  | focus_step {s} (id : String) : ReachableG ok s → ReachableG ok (focusWindow id s)
  | minimize_step {s} (id : String) : ReachableG ok s → ReachableG ok (toggleMinimize id s)
  | maximize_step {s} (id : String) : ReachableG ok s → ReachableG ok (toggleMaximize id s)
  | fullscreen_step {s} (id : String) : ReachableG ok s → ReachableG ok (toggleFullScreen id s)
  | move_step {s} (id : String) (nx ny : Int) :
      ReachableG ok s → ReachableG ok (updateWindowPosition id nx ny s)
  | resize_step {s} (id : String) (nw nh : Int) :
      ReachableG ok s → ReachableG ok (updateWindowSize id nw nh s)
  | startPairing_step {s} (id : String) : ReachableG ok s → ReachableG ok (startPairing id s)
  | completePairing_step {s} (id : String) :
      ReachableG ok s → ReachableG ok (completePairing id s)
  | launchpad_step {s} : ReachableG ok s → ReachableG ok (toggleLaunchpad s)
  | launchpadClose_step {s} : ReachableG ok s → ReachableG ok (closeLaunchpad s)
  | desktop_step {s} : ReachableG ok s → ReachableG ok (desktopClick s)

/-- Plain reachability: any sequence of operations with any arguments. -/
def Reachable : OSState → Prop := ReachableG fun _ => true

/-- Reachability restricted so that every `openApp` call whose
application id is `a` carries a disabled multi-instance flag ("sequences
of openApp calls on a single-instance application"). -/
def ReachableSI (a : String) : OSState → Prop :=
  ReachableG fun app => !(app.id == a) || !app.allowMultiInstance

/-- Number of windows of application `a` in the registry. -/
def appCount (a : String) (l : List WindowInstance) : Nat :=
  l.countP fun w => w.appId == a

/-- Every window's `zIndex` is strictly below the `nextZIndex` counter. -/
def ZBelowNext (s : OSState) : Prop := ∀ w ∈ s.windows, w.zIndex < s.nextZIndex

/-- Every pair record is a two-element list of distinct ids (the
append path of `completePairing` that would grow a pair never fires in a
reachable state). -/
def PairsWellFormed (s : OSState) : Prop :=
  ∀ p ∈ s.windowPairs, ∃ a b, p = [a, b] ∧ a ≠ b

/-- A pending pairing source never belongs to an existing pair. -/
def PendingUnpaired (s : OSState) : Prop :=
  ∀ src, s.pairingWindowId = some src → ∀ p ∈ s.windowPairs, src ∉ p

/-- Inductive invariant of the window manager. -/
def StateInv (s : OSState) : Prop := ZBelowNext s ∧ PairsWellFormed s ∧ PendingUnpaired s

/-!
## Specification-side definitions

Definitions written from the specification's words, for comparison with
the behaviour of the embedded source.
-/

/-- The active-window recompute as the specification words it: greatest
`zIndex`, the FIRST window encountered winning ties ("first encountered
wins (stable reduce)").  To be compared with `lastTop`, the reduce the
source actually performs. -/
def firstTopSpec (l : List WindowInstance) : Option WindowInstance :=
  match l with
  | [] => none
  | h :: t => some (t.foldl (fun prev current =>
      if current.zIndex > prev.zIndex then current else prev) h)

/-- `w` is an element of `l` of maximal `zIndex` such that every element
after it has a strictly smaller `zIndex` (the element the source's reduce
selects). -/
def IsLastTop (l : List WindowInstance) (w : WindowInstance) : Prop :=
  ∃ l1 l2, l = l1 ++ w :: l2 ∧ (∀ v ∈ l1, v.zIndex ≤ w.zIndex) ∧
    (∀ v ∈ l2, v.zIndex < w.zIndex)

/-- `res` is the recomputed active id for the candidate list `l`: the id
of the greatest-`zIndex` element (last one winning ties), or `none` when
no candidate remains. -/
def ActiveMatchesTop (res : Option String) (l : List WindowInstance) : Prop :=
  (l = [] ∧ res = none) ∨ ∃ w, IsLastTop l w ∧ res = some w.id

/-- No id occurs in two distinct entries of the pair set. -/
def PairsDisjoint (pairs : List (List String)) : Prop :=
  List.Pairwise (fun p q => ∀ x ∈ p, x ∉ q) pairs

/-- The members of `group` that `toggleMinimize` routes through a
non-early-returning `focusWindow` call, read off the entry state: members
whose window exists and is minimized and which are not blocked by
`focusWindow`'s already-active guard.  Agrees with the ids collected by
the fold whenever the group has no duplicate members. -/
def focusedOf (s : OSState) (group : List String) : List String :=
  group.filter fun g =>
    match s.windows.find? (fun w => w.id == g) with
    | some w => w.isMinimized && !(s.activeWindowId == some g && !s.launchpadOpen)
    | none => false

/-!
## Concrete fixtures

Sample application definitions and operation traces used by the
counterexamples and witnesses.
-/

def notesApp : AppDefinition := { id := "notes", name := "Notes" }

def otherApp : AppDefinition := { id := "other", name := "Other" }

def miscApp : AppDefinition := { id := "misc", name := "Misc" }

/-- One window `win-0` open. -/
def st1 : OSState := openApp notesApp none 1000 800 initState

/-- Windows `win-0` and `win-1` open, `win-1` active. -/
def st2 : OSState := openApp otherApp none 1000 800 st1

/-- `win-1` minimized; the active id falls back to `win-0`, whose
`zIndex` (10) is below minimized `win-1`'s (11). -/
def st3 : OSState := toggleMinimize "win-1" st2

/-- `win-0` and `win-1` paired. -/
def st4 : OSState := completePairing "win-1" (startPairing "win-0" st2)

/-- Minimizing one member of the pair minimizes both; no window remains,
so the active id becomes `none`. -/
def st5 : OSState := toggleMinimize "win-0" st4

/-- Relaunching the single-instance `notes` app while its window is
paired with another minimized window: the whole pair is un-minimized and
the PARTNER (`win-1`) ends up active. -/
def st6 : OSState := openApp notesApp none 1000 800 st5

/-- A third window `win-2` on top; `win-0` and `win-1` both carry
`zIndex` 12. -/
def st7 : OSState := openApp miscApp none 1000 800 st6

/-- Minimizing the active `win-2`: the recompute has to tie-break between
`win-0` and `win-1` (both `zIndex` 12). -/
def st8 : OSState := toggleMinimize "win-2" st7

/-- Three windows `win-0`, `win-1`, `win-2`. -/
def su3 : OSState := openApp miscApp none 1000 800 st2

/-- `win-0` and `win-1` paired. -/
def su4 : OSState := completePairing "win-1" (startPairing "win-0" su3)

/-- Overlapping pairs: completing a pairing whose target `win-0` already
belongs to `["win-0","win-1"]` records `["win-2","win-0"]` as well. -/
def su5 : OSState := completePairing "win-0" (startPairing "win-2" su4)

/-- `win-0` maximized at its creation geometry (140, 90, 720, 540). -/
def sv2 : OSState := toggleMaximize "win-0" st1

/-- The maximized window dragged to (200, 300); the pre-maximize snapshot
still holds (140, 90, 720, 540). -/
def sv3 : OSState := updateWindowPosition "win-0" 200 300 sv2

/-- Fullscreen entered from the maximized state: the existing snapshot is
preserved. -/
def sv4 : OSState := toggleFullScreen "win-0" sv3

/-- Fullscreen exited: geometry restored from the pre-maximize snapshot
(140, 90), not the pre-fullscreen position (200, 300). -/
def sv5 : OSState := toggleFullScreen "win-0" sv4

/-- The window created by the first `openApp notesApp none 1000 800`
call, as it sits in `st1.windows`. -/
def notesWin1 : WindowInstance :=
  { id := "win-0", appId := "notes", title := "Notes", x := 140, y := 90,
    width := 720, height := 540, zIndex := 10,
    isMinimized := false, isMaximized := false, isFullScreen := false }

/-!
## Supporting lemmas
-/

lemma contains_iff_mem {l : List String} {a : String} :
    l.contains a = true ↔ a ∈ l := by simp

lemma contains_false_of_not_mem {l : List String} {a : String} (h : a ∉ l) :
    l.contains a = false := by
  simpa using h

/-- Mapping a function that leaves the `id` field (and any window whose id
is `target`) untouched commutes with looking the id up. -/
lemma find?_map_id_fixed (l : List WindowInstance) (f : WindowInstance → WindowInstance)
    (target : String) (hid : ∀ w, (f w).id = w.id)
    (hfix : ∀ w, w.id = target → f w = w) :
    (l.map f).find? (fun w => w.id == target) = l.find? (fun w => w.id == target) := by
  rw [List.find?_map]
  have hp : ((fun w : WindowInstance => w.id == target) ∘ f)
      = fun w : WindowInstance => w.id == target := by
    funext w
    simp [Function.comp, hid]
  rw [hp]
  induction l with
  | nil => rfl
  | cons a l ih =>
    by_cases ha : a.id = target
    · simp [List.find?_cons, ha, hfix a ha]
    · simp only [List.find?_cons]
      have : (a.id == target) = false := by simpa using ha
      simp [this, ih]

/-- The source's reduce selects an element of maximal `zIndex`; every
element strictly after the selected one has a strictly smaller `zIndex`
(on ties `current` replaces `prev`, so the LAST maximum wins). -/
lemma foldl_topStep_spec (t : List WindowInstance) (a : WindowInstance) :
    (t.foldl topStep a = a ∧ ∀ v ∈ t, v.zIndex < a.zIndex) ∨
    ∃ t1 w t2, t = t1 ++ w :: t2 ∧ t.foldl topStep a = w ∧
      a.zIndex ≤ w.zIndex ∧ (∀ v ∈ t1, v.zIndex ≤ w.zIndex) ∧
      (∀ v ∈ t2, v.zIndex < w.zIndex) := by
  induction t generalizing a with
  | nil => exact Or.inl ⟨rfl, by simp⟩
  | cons c t ih =>
    simp only [List.foldl_cons]
    by_cases hc : a.zIndex > c.zIndex
    · rw [show topStep a c = a from if_pos hc]
      rcases ih a with ⟨heq, hall⟩ | ⟨t1, w, t2, ht, heq, hle, h1, h2⟩
      · refine Or.inl ⟨heq, ?_⟩
        intro v hv
        rcases List.mem_cons.mp hv with rfl | hv
        · exact hc
        · exact hall v hv
      · refine Or.inr ⟨c :: t1, w, t2, by simp [ht], heq, hle, ?_, h2⟩
        intro v hv
        rcases List.mem_cons.mp hv with rfl | hv
        · exact le_trans (le_of_lt hc) hle
        · exact h1 v hv
    · rw [show topStep a c = c from if_neg hc]
      rcases ih c with ⟨heq, hall⟩ | ⟨t1, w, t2, ht, heq, hle, h1, h2⟩
      · exact Or.inr ⟨[], c, t, rfl, heq, Nat.le_of_not_lt hc, by simp, hall⟩
      · refine Or.inr ⟨c :: t1, w, t2, by simp [ht], heq,
          le_trans (Nat.le_of_not_lt hc) hle, ?_, h2⟩
        intro v hv
        rcases List.mem_cons.mp hv with rfl | hv
        · exact hle
        · exact h1 v hv

/-- The recomputed active id (`lastTop`, mapped to ids) satisfies the
last-maximum specification. -/
lemma activeMatchesTop_lastTop (l : List WindowInstance) :
    ActiveMatchesTop ((lastTop l).map (·.id)) l := by
  cases l with
  | nil => exact Or.inl ⟨rfl, rfl⟩
  | cons h t =>
    refine Or.inr ?_
    rcases foldl_topStep_spec t h with ⟨heq, hall⟩ | ⟨t1, w, t2, ht, heq, _, h1, h2⟩
    · exact ⟨h, ⟨[], t, by simp, by simp, hall⟩, by simp [lastTop, heq]⟩
    · refine ⟨w, ⟨h :: t1, t2, by simp [ht], ?_, h2⟩, by simp [lastTop, heq]⟩
      intro v hv
      rcases List.mem_cons.mp hv with rfl | hv
      · rcases foldl_topStep_spec t v with ⟨heq2, _⟩ | _
        · rw [heq] at heq2
          exact le_of_eq (congrArg WindowInstance.zIndex heq2.symm)
        · rename_i hx
          rcases hx with ⟨u1, u, u2, _, heq2, hle2, _, _⟩
          rw [heq] at heq2
          exact heq2 ▸ hle2
      · exact h1 v hv

/-- A `findIdx?` hit yields a member satisfying the predicate. -/
lemma exists_of_findIdx?_eq_some {α} {p : α → Bool} {l : List α} {i : Nat}
    (h : l.findIdx? p = some i) : ∃ x ∈ l, p x = true := by
  obtain ⟨hlen, hidx⟩ := List.findIdx?_eq_some_iff_findIdx_eq.mp h
  subst hidx
  exact ⟨l[l.findIdx p], List.getElem_mem _, List.findIdx_getElem⟩

lemma zbelow_map {l : List WindowInstance} {N M : Nat} {f : WindowInstance → WindowInstance}
    (h : ∀ w ∈ l, w.zIndex < N) (hf : ∀ w, w.zIndex < N → (f w).zIndex < M) :
    ∀ w ∈ l.map f, w.zIndex < M := by
  intro w hw
  rcases List.mem_map.mp hw with ⟨v, hv, rfl⟩
  exact hf v (h v hv)

lemma inv_focusWindow (id : String) {s : OSState} (h : StateInv s) :
    StateInv (focusWindow id s) := by
  obtain ⟨hz, hp, hd⟩ := h
  unfold focusWindow
  split
  · exact ⟨hz, hp, hd⟩
  · refine ⟨?_, hp, ?_⟩
    · refine zbelow_map hz ?_
      intro w hw
      by_cases hwid : (w.id == id) = true <;> simp [hwid] <;> omega
    · intro src hsrc
      exact absurd hsrc (by simp)

lemma zbelow_minimizeFoldList (s : OSState) (ids : List String) {N : Nat} :
    ∀ acc : List WindowInstance × List String × Bool,
      (∀ w ∈ acc.1, w.zIndex < N) →
      ∀ w ∈ (ids.foldl (minimizeFold s) acc).1, w.zIndex < N := by
  induction ids with
  | nil => exact fun acc h => h
  | cons g ids ih =>
    intro acc h
    rw [List.foldl_cons]
    apply ih
    unfold minimizeFold
    split
    · exact h
    · refine zbelow_map h ?_
      intro w hw
      by_cases hwid : (w.id == g) = true <;> simp [hwid, flipMin] <;> omega

lemma zbelow_bumpFoldList (s : OSState) (fids : List String) {M : Nat}
    (hM : s.nextZIndex < M) :
    ∀ l : List WindowInstance, (∀ w ∈ l, w.zIndex < M) →
      ∀ w ∈ fids.foldl (bumpFold s) l, w.zIndex < M := by
  induction fids with
  | nil => exact fun l h => h
  | cons f fids ih =>
    intro l h
    rw [List.foldl_cons]
    apply ih
    unfold bumpFold
    refine zbelow_map h ?_
    intro w hw
    by_cases hwid : (w.id == f) = true <;> simp [hwid] <;> omega

lemma inv_toggleMinimize (id : String) {s : OSState} (h : StateInv s) :
    StateInv (toggleMinimize id s) := by
  obtain ⟨hz, hp, hd⟩ := h
  have hbase : ∀ w ∈ (minimizeRun s id).1, w.zIndex < s.nextZIndex :=
    zbelow_minimizeFoldList s (pairGroup s id) (s.windows, [], false) hz
  refine ⟨?_, hp, ?_⟩
  · show ∀ w ∈ (minimizeRun s id).2.1.foldl (bumpFold s) (minimizeRun s id).1,
      w.zIndex < s.nextZIndex + (minimizeRun s id).2.1.length
    cases hfi : (minimizeRun s id).2.1 with
    | nil =>
      intro w hw
      simp only [List.foldl_nil] at hw
      simpa using hbase w hw
    | cons a as =>
      refine zbelow_bumpFoldList s (a :: as) (by simp) _ ?_
      intro w hw
      exact lt_of_lt_of_le (hbase w hw) (Nat.le_add_right _ _)
  · show PendingUnpaired _
    intro src hsrc p hmem
    have hpend : (toggleMinimize id s).pairingWindowId
        = if (minimizeRun s id).2.1.isEmpty then s.pairingWindowId else none := rfl
    rw [hpend] at hsrc
    by_cases he : (minimizeRun s id).2.1.isEmpty
    · rw [if_pos he] at hsrc
      exact hd src hsrc p hmem
    · rw [if_neg he] at hsrc
      exact absurd hsrc (by simp)

lemma inv_openApp (app : AppDefinition) (fp : Option String) (iw ihh : Int)
    {s : OSState} (h : StateInv s) : StateInv (openApp app fp iw ihh s) := by
  unfold openApp
  split
  · rename_i existingWindow _
    have h1 : StateInv (if existingWindow.isMinimized
        then toggleMinimize existingWindow.id s
        else focusWindow existingWindow.id s) := by
      split
      · exact inv_toggleMinimize _ h
      · exact inv_focusWindow _ h
    obtain ⟨hz1, hp1, hd1⟩ := h1
    cases fp with
    | some fpath =>
      refine ⟨?_, hp1, hd1⟩
      refine zbelow_map hz1 ?_
      intro w hw
      by_cases hwid : (w.id == existingWindow.id) = true <;> simp [hwid] <;> omega
    | none => exact ⟨hz1, hp1, hd1⟩
  · obtain ⟨hz, hp, hd⟩ := h
    refine ⟨?_, hp, hd⟩
    intro w hw
    rcases List.mem_append.mp hw with hw | hw
    · exact Nat.lt_succ_of_lt (hz w hw)
    · rcases List.mem_singleton.mp hw with rfl
      exact Nat.lt_succ_self _

lemma inv_closeWindow (id : String) {s : OSState} (h : StateInv s) :
    StateInv (closeWindow id s) := by
  obtain ⟨hz, hp, hd⟩ := h
  refine ⟨?_, ?_, ?_⟩
  · intro w hw
    exact hz w (List.mem_filter.mp hw).1
  · intro p hmem
    exact hp p (List.mem_filter.mp hmem).1
  · intro src hsrc p hmem
    exact hd src hsrc p (List.mem_filter.mp hmem).1

lemma fsTransform_zIndex (w : WindowInstance) : (fsTransform w).zIndex = w.zIndex := by
  unfold fsTransform
  split
  · cases w.preMaximizedState <;> rfl
  · rfl

lemma fsTransform_id (w : WindowInstance) : (fsTransform w).id = w.id := by
  unfold fsTransform
  split
  · cases w.preMaximizedState <;> rfl
  · rfl

lemma mxTransform_zIndex (w : WindowInstance) : (mxTransform w).zIndex = w.zIndex := by
  unfold mxTransform
  split <;> rfl

lemma mxTransform_id (w : WindowInstance) : (mxTransform w).id = w.id := by
  unfold mxTransform
  split <;> rfl

lemma inv_toggleFullScreen (id : String) {s : OSState} (h : StateInv s) :
    StateInv (toggleFullScreen id s) := by
  obtain ⟨hz, hp, hd⟩ := h
  unfold toggleFullScreen
  apply inv_focusWindow
  refine ⟨?_, hp, hd⟩
  refine zbelow_map hz ?_
  intro w hw
  by_cases hwid : (w.id == id) = true <;> simp [hwid, fsTransform_zIndex] <;> omega

lemma inv_toggleMaximize (id : String) {s : OSState} (h : StateInv s) :
    StateInv (toggleMaximize id s) := by
  obtain ⟨hz, hp, hd⟩ := h
  unfold toggleMaximize
  apply inv_focusWindow
  refine ⟨?_, hp, hd⟩
  refine zbelow_map hz ?_
  intro w hw
  by_cases hwid : (w.id == id) = true <;> simp [hwid, mxTransform_zIndex] <;> omega

lemma inv_updateWindowPosition (id : String) (nx ny : Int) {s : OSState}
    (h : StateInv s) : StateInv (updateWindowPosition id nx ny s) := by
  obtain ⟨hz, hp, hd⟩ := h
  unfold updateWindowPosition
  split
  · exact ⟨hz, hp, hd⟩
  · refine ⟨?_, hp, hd⟩
    intro w hw
    rcases List.mem_map.mp hw with ⟨v, hv, rfl⟩
    have hvz := hz v hv
    split <;> exact hvz

lemma inv_updateWindowSize (id : String) (nw nh : Int) {s : OSState}
    (h : StateInv s) : StateInv (updateWindowSize id nw nh s) := by
  obtain ⟨hz, hp, hd⟩ := h
  refine ⟨?_, hp, hd⟩
  intro w hw
  rcases List.mem_map.mp hw with ⟨v, hv, rfl⟩
  have hvz := hz v hv
  split <;> exact hvz

lemma inv_startPairing (id : String) {s : OSState} (h : StateInv s) :
    StateInv (startPairing id s) := by
  obtain ⟨hz, hp, hd⟩ := h
  unfold startPairing
  split
  · refine ⟨hz, ?_, ?_⟩
    · intro p hmem
      exact hp p ((List.eraseIdx_sublist _ _).mem hmem)
    · intro src hsrc p hmem
      exact hd src hsrc p ((List.eraseIdx_sublist _ _).mem hmem)
  · rename_i hidx
    refine ⟨hz, hp, ?_⟩
    intro src hsrc p hmem
    have hid : id = src := by simpa using hsrc
    subst hid
    have hnone := List.findIdx?_eq_none_iff.mp hidx p hmem
    intro hin
    rw [contains_iff_mem.mpr hin] at hnone
    exact absurd hnone (by simp)

lemma inv_completePairing (targetId : String) {s : OSState} (h : StateInv s) :
    StateInv (completePairing targetId s) := by
  obtain ⟨hz, hp, hd⟩ := h
  have hpend : ∀ t : OSState, t.windows = s.windows → t.nextZIndex = s.nextZIndex →
      PairsWellFormed t → StateInv { t with pairingWindowId := none } := by
    intro t hw hn hpt
    refine ⟨?_, hpt, ?_⟩
    · intro w hwm
      rw [hn]
      exact hz w (hw ▸ hwm)
    · intro src hsrc
      exact absurd hsrc (by simp)
  unfold completePairing
  cases hpd : s.pairingWindowId with
  | none => exact hpend s rfl rfl hp
  | some src =>
    dsimp only
    by_cases hst : src ≠ targetId
    · rw [if_pos hst]
      cases hfi : s.windowPairs.findIdx? (fun p : List String => p.contains src) with
      | some i =>
        exfalso
        obtain ⟨p, hmem, hcont⟩ := exists_of_findIdx?_eq_some hfi
        exact hd src hpd p hmem (contains_iff_mem.mp hcont)
      | none =>
        refine hpend _ rfl rfl ?_
        intro p hmem
        rcases List.mem_append.mp hmem with hmem | hmem
        · exact hp p hmem
        · rcases List.mem_singleton.mp hmem with rfl
          exact ⟨src, targetId, rfl, hst⟩
    · rw [if_neg hst]
      exact hpend s rfl rfl hp

lemma inv_toggleLaunchpad {s : OSState} (h : StateInv s) : StateInv (toggleLaunchpad s) := h

lemma inv_closeLaunchpad {s : OSState} (h : StateInv s) : StateInv (closeLaunchpad s) := h

lemma inv_desktopClick {s : OSState} (h : StateInv s) : StateInv (desktopClick s) := by
  obtain ⟨hz, hp, hd⟩ := h
  unfold desktopClick
  split
  · exact ⟨hz, hp, fun src hsrc => absurd hsrc (by simp)⟩
  · exact ⟨hz, hp, hd⟩

lemma inv_initState : StateInv initState := by
  refine ⟨?_, ?_, ?_⟩ <;> intro x hx <;> simp [initState] at hx

/-- Every reachable state satisfies the inductive invariant. -/
theorem reachable_inv {ok : AppDefinition → Bool} {s : OSState}
    (h : ReachableG ok s) : StateInv s := by
  induction h with
  | init => exact inv_initState
  | open_step app fp iw ihh _ _ ihv => exact inv_openApp app fp iw ihh ihv
  | close_step id _ ihv => exact inv_closeWindow id ihv
  | focus_step id _ ihv => exact inv_focusWindow id ihv
  | minimize_step id _ ihv => exact inv_toggleMinimize id ihv
  | maximize_step id _ ihv => exact inv_toggleMaximize id ihv
  | fullscreen_step id _ ihv => exact inv_toggleFullScreen id ihv
  | move_step id nx ny _ ihv => exact inv_updateWindowPosition id nx ny ihv
  | resize_step id nw nh _ ihv => exact inv_updateWindowSize id nw nh ihv
  | startPairing_step id _ ihv => exact inv_startPairing id ihv
  | completePairing_step id _ ihv => exact inv_completePairing id ihv
  | launchpad_step _ ihv => exact inv_toggleLaunchpad ihv
  | launchpadClose_step _ ihv => exact inv_closeLaunchpad ihv
  | desktop_step _ ihv => exact inv_desktopClick ihv

/-- If every credential fails, the loop tries `r` successive indices and
surfaces the error of the LAST attempt, resetting the returned
`currentKeyIndex` to the captured initial index. -/
lemma requestLoop_all_fail {E A : Type} (outcome : Nat → Except E A)
    (errOf : Nat → E) (n init : Nat) (hn : 0 < n)
    (herr : ∀ j, j < n → outcome j = Except.error (errOf j)) :
    ∀ r idx, 0 < r → idx < n →
      requestLoop outcome n init r idx
        = (Except.error (AIServiceError.request (errOf ((idx + (r - 1)) % n))), init) := by
  intro r
  induction r with
  | zero => intro idx hr; exact absurd hr (by simp)
  | succ r ih =>
    intro idx _ hidx
    unfold requestLoop
    rw [herr idx hidx]
    dsimp only
    by_cases hr0 : r = 0
    · subst hr0
      rw [if_pos rfl]
      simp [Nat.mod_eq_of_lt hidx]
    · rw [if_neg hr0]
      rw [ih ((idx + 1) % n) (Nat.pos_of_ne_zero hr0) (Nat.mod_lt _ hn)]
      rw [Nat.mod_add_mod]
      rw [show idx + 1 + (r - 1) = idx + (r + 1 - 1) from by omega]

/-- If the first `k` attempts fail and attempt `k` succeeds, the loop
returns that success with the `currentKeyIndex` advanced to the
credential that served it. -/
lemma requestLoop_success {E A : Type} (outcome : Nat → Except E A)
    (n init : Nat) (a : A) (hn : 0 < n) :
    ∀ k r idx, k < r → idx < n →
      (∀ i, i < k → ∃ e, outcome ((idx + i) % n) = Except.error e) →
      outcome ((idx + k) % n) = Except.ok a →
      requestLoop outcome n init r idx = (Except.ok a, (idx + k) % n) := by
  intro k
  induction k with
  | zero =>
    intro r idx hkr hidx _ hok
    rw [Nat.add_zero, Nat.mod_eq_of_lt hidx] at hok ⊢
    cases r with
    | zero => exact absurd hkr (by simp)
    | succ r =>
      unfold requestLoop
      rw [hok]
  | succ k ih =>
    intro r idx hkr hidx hfail hok
    cases r with
    | zero => exact absurd hkr (by simp)
    | succ r =>
      obtain ⟨e0, he0⟩ : ∃ e, outcome idx = Except.error e := by
        have h := hfail 0 (Nat.succ_pos _)
        rwa [Nat.add_zero, Nat.mod_eq_of_lt hidx] at h
      have hmod : ∀ i : Nat, ((idx + 1) % n + i) % n = (idx + (1 + i)) % n := by
        intro i
        rw [Nat.mod_add_mod]
        rw [show idx + 1 + i = idx + (1 + i) from by omega]
      unfold requestLoop
      rw [he0]
      dsimp only
      rw [if_neg (show ¬r = 0 from by omega)]
      rw [ih r ((idx + 1) % n) (by omega) (Nat.mod_lt _ hn)
        (fun i hi => by rw [hmod i]; exact hfail (1 + i) (by omega))
        (by rw [hmod k, show idx + (1 + k) = idx + (k + 1) from by omega]; exact hok)]
      rw [hmod k]
      rw [show idx + (1 + k) = idx + (k + 1) from by omega]

/-- With connectivity and a nonempty key list, `performRequest` is the
rotation loop started at the current index. -/
lemma performRequest_online {E A : Type} (outcome : Nat → Except E A)
    (n start : Nat) (hn : n ≠ 0) :
    performRequest true n start outcome = requestLoop outcome n start n start := by
  unfold performRequest
  rw [if_neg (by simp)]
  rw [if_neg hn]

/-- Concrete rotation scenario: every credential fails. -/
def outcomeAllFail : Nat → Except String Nat :=
  fun i => Except.error ("e" ++ toString i)

def errOfFail : Nat → String := fun i => "e" ++ toString i

/-- Concrete rotation scenario: key 0 fails, key 1 serves the request. -/
def outcomeSecondOk : Nat → Except String Nat :=
  fun i => if i = 0 then Except.error "e0" else Except.ok 7

/-- C9: `performRequest` short-circuits with the distinct offline error —
independently of any credential — when connectivity is absent; otherwise
the `i`-th attempt uses key index `(start + i) % n`, so each of the `n`
credentials is attempted at most once (the indices are pairwise distinct);
the first success is returned with the rotation resting on the serving
credential, and the final underlying error is surfaced only after all
`n` credentials have been tried and failed. -/
theorem C9_performRequest_rotation {E A : Type} (outcome : Nat → Except E A)
    (errOf : Nat → E) (n start k : Nat) (a : A) :
    (performRequest false n start outcome
        = (Except.error AIServiceError.offline, start)) ∧
    (∀ e : E, (AIServiceError.offline : AIServiceError E) ≠ AIServiceError.request e) ∧
    (∀ i j, i < n → j < n → (start + i) % n = (start + j) % n → i = j) ∧
    (0 < n → start < n →
      (∀ j, j < n → outcome j = Except.error (errOf j)) →
      performRequest true n start outcome
        = (Except.error (AIServiceError.request (errOf ((start + (n - 1)) % n))), start)) ∧
    (0 < n → start < n → k < n →
      (∀ i, i < k → ∃ e, outcome ((start + i) % n) = Except.error e) →
      outcome ((start + k) % n) = Except.ok a →
      performRequest true n start outcome = (Except.ok a, (start + k) % n)) := by
  refine ⟨rfl, fun e h => AIServiceError.noConfusion h, ?_, ?_, ?_⟩
  · intro i j hi hj hmod
    have h1 : i ≡ j [MOD n] := Nat.ModEq.add_left_cancel' start hmod
    have h2 : i % n = j % n := h1
    rwa [Nat.mod_eq_of_lt hi, Nat.mod_eq_of_lt hj] at h2
  · intro hn hstart herr
    rw [performRequest_online outcome n start (by omega)]
    exact requestLoop_all_fail outcome errOf n start hn herr n start hn hstart
  · intro hn hstart hk hfail hok
    rw [performRequest_online outcome n start (by omega)]
    exact requestLoop_success outcome n start a hn k n start hk hstart hfail hok

/-- Witness for C9 at `n = 2`, `start = 0`: a run where both keys fail
surfaces the second key's error, and a run where key 1 serves succeeds
with the rotation on key 1. -/
theorem C9_performRequest_rotation_witness :
    performRequest true 2 0 outcomeAllFail
      = (Except.error (AIServiceError.request "e1"), 0) ∧
    performRequest true 2 0 outcomeSecondOk = (Except.ok 7, 1) := by
  constructor
  · have h := (C9_performRequest_rotation outcomeAllFail errOfFail 2 0 0 0).2.2.2.1
      (by decide) (by decide) (fun j hj => rfl)
    exact h
  · have h := (C9_performRequest_rotation outcomeSecondOk errOfFail 2 0 1 7).2.2.2.2
      (by decide) (by decide) (by decide)
      (fun i hi => ⟨"e0", by
        obtain rfl : i = 0 := Nat.lt_one_iff.mp hi
        rfl⟩) rfl
    exact h

/-- C10: a fully failed run resets `currentKeyIndex` to the index in use
before the call (the rotation state is unchanged on total failure), while
a run that succeeds at attempt `k` leaves the index on the serving
credential `(start + k) % n`. -/
theorem C10_performRequest_reset {E A : Type} (outcome : Nat → Except E A)
    (errOf : Nat → E) (n start k : Nat) (a : A) :
    (0 < n → start < n →
      (∀ j, j < n → outcome j = Except.error (errOf j)) →
      (performRequest true n start outcome).2 = start) ∧
    (0 < n → start < n → k < n →
      (∀ i, i < k → ∃ e, outcome ((start + i) % n) = Except.error e) →
      outcome ((start + k) % n) = Except.ok a →
      (performRequest true n start outcome).2 = (start + k) % n) := by
  constructor
  · intro hn hstart herr
    rw [performRequest_online outcome n start (by omega)]
    rw [requestLoop_all_fail outcome errOf n start hn herr n start hn hstart]
  · intro hn hstart hk hfail hok
    rw [performRequest_online outcome n start (by omega)]
    rw [requestLoop_success outcome n start a hn k n start hk hstart hfail hok]

/-- Witness for C10 at `n = 2`, `start = 1`: total failure leaves the
index at 1; success at the second attempt (key 0) leaves it at 0. -/
theorem C10_performRequest_reset_witness :
    (performRequest true 2 1 outcomeAllFail).2 = 1 ∧
    (performRequest true 2 1 outcomeAllFail).2 ≠ 0 ∧
    (performRequest true 2 0 outcomeSecondOk).2 = (0 + 1) % 2 := by
  refine ⟨?_, ?_, ?_⟩
  · exact (C10_performRequest_reset outcomeAllFail errOfFail 2 1 0 0).1
      (by decide) (by decide) (fun j hj => rfl)
  · have h := (C10_performRequest_reset outcomeAllFail errOfFail 2 1 0 0).1
      (by decide) (by decide) (fun j hj => rfl)
    rw [h]
    decide
  · exact (C10_performRequest_reset outcomeSecondOk errOfFail 2 0 1 7).2
      (by decide) (by decide) (by decide)
      (fun i hi => ⟨"e0", by
        obtain rfl : i = 0 := Nat.lt_one_iff.mp hi
        rfl⟩) rfl

lemma map_fixed_eq_self {α : Type} {l : List α} {f : α → α}
    (h : ∀ x ∈ l, f x = x) : l.map f = l := by
  induction l with
  | nil => rfl
  | cons a l ih =>
    rw [List.map_cons, h a (by simp), ih (fun x hx => h x (by simp [hx]))]

lemma find?_id_eq_none {s : OSState} {id : String}
    (habs : ∀ w ∈ s.windows, w.id ≠ id) :
    s.windows.find? (fun w => w.id == id) = none := by
  apply List.find?_eq_none.mpr
  intro w hw
  simpa using habs w hw

lemma find?_pair_eq_none {s : OSState} {id : String}
    (hnopair : ∀ p ∈ s.windowPairs, id ∉ p) :
    s.windowPairs.find? (fun p => p.contains id) = none := by
  apply List.find?_eq_none.mpr
  intro p hp
  simpa using hnopair p hp

/-- The `setFullScreenWindowId` fold of `toggleFullScreen` leaves the
slot untouched when no window matches the id. -/
lemma foldl_fsSlot_fixed (id : String) {l : List WindowInstance}
    (h : ∀ w ∈ l, w.id ≠ id) (init : Option String) :
    l.foldl (fun fs win =>
        if win.id == id then (if win.isFullScreen then none else some id) else fs)
      init = init := by
  induction l generalizing init with
  | nil => rfl
  | cons a t ih =>
    rw [List.foldl_cons, if_neg (by simpa using h a (by simp))]
    exact ih (fun w hw => h w (by simp [hw])) init

/-- C2 (amended): with an id absent from the registry,
`updateWindowPosition` and `updateWindowSize` are unconditional silent
no-ops; `toggleMinimize` is a no-op provided no stale pair record
mentions the id, and `closeWindow` provided additionally the id is not
the recorded active id and does not hold the global fullscreen slot.
`focusWindow`, `toggleMaximize`, `toggleFullScreen`, `startPairing` and
`completePairing` perform no registry-existence check: `focusWindow(id)`
records the nonexistent id as the active window and (outside its
already-active guard) advances the z counter; `toggleMaximize(id)` and
`toggleFullScreen(id)` degenerate to exactly `focusWindow(id)`;
`startPairing(id)` (no stale pair mentioning the id) records the
nonexistent id as the pending pairing source; and `completePairing(id)`
with a distinct pending source records a pair containing the
nonexistent id. -/
theorem C2_absent_id_amended (s : OSState) (id : String) (nx ny nw nh : Int)
    (habs : ∀ w ∈ s.windows, w.id ≠ id) :
    updateWindowPosition id nx ny s = s ∧
    updateWindowSize id nw nh s = s ∧
    ((∀ p ∈ s.windowPairs, id ∉ p) → toggleMinimize id s = s) ∧
    ((∀ p ∈ s.windowPairs, id ∉ p) → s.activeWindowId.getD "" ≠ id →
      s.fullScreenWindowId ≠ some id → closeWindow id s = s) ∧
    (focusWindow id s).activeWindowId = some id ∧
    (¬(s.activeWindowId = some id ∧ s.launchpadOpen = false) →
      (focusWindow id s).nextZIndex = s.nextZIndex + 1) ∧
    toggleMaximize id s = focusWindow id s ∧
    toggleFullScreen id s = focusWindow id s ∧
    ((∀ p ∈ s.windowPairs, id ∉ p) → (startPairing id s).pairingWindowId = some id) ∧
    (∀ src, s.pairingWindowId = some src → src ≠ id →
      ∃ p ∈ (completePairing id s).windowPairs, id ∈ p) := by
  have hfind := find?_id_eq_none habs
  refine ⟨?_, ?_, ?_, ?_, ?_, ?_, ?_, ?_, ?_, ?_⟩
  · unfold updateWindowPosition
    rw [hfind]
  · unfold updateWindowSize
    rw [map_fixed_eq_self (fun w hw => by simp [habs w hw])]
  · intro hnopair
    have hpair := find?_pair_eq_none hnopair
    have hgroup : pairGroup s id = [id] := by
      unfold pairGroup
      rw [hpair]
      rfl
    unfold toggleMinimize minimizeRun
    rw [hgroup, hfind]
    have hrun : List.foldl (minimizeFold s) (s.windows, [], false) [id]
        = (s.windows, [], false) := by
      rw [List.foldl_cons, List.foldl_nil]
      unfold minimizeFold
      rw [hfind]
    rw [hrun]
    rfl
  · intro hnopair hactive hfs
    have hpair := find?_pair_eq_none hnopair
    have hgroup : pairGroup s id = [id] := by
      unfold pairGroup
      rw [hpair]
      rfl
    unfold closeWindow
    rw [hgroup]
    dsimp only
    have h1 : ([id].any fun winId => s.fullScreenWindowId == some winId) = false := by
      simpa using hfs
    have h2 : (s.windows.filter fun win => !([id].contains win.id)) = s.windows := by
      apply List.filter_eq_self.mpr
      intro w hw
      simp [habs w hw]
    have h3 : (s.windowPairs.filter fun p => !p.contains id) = s.windowPairs := by
      apply List.filter_eq_self.mpr
      intro p hp
      simpa using hnopair p hp
    have h4 : ([id].contains (s.activeWindowId.getD "")) = false := by
      simpa using hactive
    rw [h1, h2, h3, h4]
    simp
  · by_cases hguard : s.activeWindowId = some id ∧ s.launchpadOpen = false
    · unfold focusWindow
      rw [if_pos hguard]
      exact hguard.1
    · unfold focusWindow
      rw [if_neg hguard]
  · intro hguard
    unfold focusWindow
    rw [if_neg hguard]
  · have hmx : (s.windows.map fun win => if win.id == id then mxTransform win else win)
        = s.windows :=
      map_fixed_eq_self (fun w hw => by rw [if_neg (by simpa using habs w hw)])
    unfold toggleMaximize
    dsimp only
    rw [hmx]
  · have hfsm : (s.windows.map fun win => if win.id == id then fsTransform win else win)
        = s.windows :=
      map_fixed_eq_self (fun w hw => by rw [if_neg (by simpa using habs w hw)])
    have hfold := foldl_fsSlot_fixed id habs s.fullScreenWindowId
    unfold toggleFullScreen
    dsimp only
    rw [hfsm, hfold]
  · intro hnopair
    unfold startPairing
    have : s.windowPairs.findIdx? (fun p : List String => p.contains id) = none := by
      apply List.findIdx?_eq_none_iff.mpr
      intro p hp
      simpa using hnopair p hp
    rw [this]
  · intro src hsrc hne
    unfold completePairing
    rw [hsrc]
    dsimp only
    rw [if_pos hne]
    cases hidx : s.windowPairs.findIdx? (fun p : List String => p.contains src) with
    | some i =>
      dsimp only
      obtain ⟨hlt, -⟩ := List.findIdx?_eq_some_iff_findIdx_eq.mp hidx
      refine ⟨(s.windowPairs.getD i []) ++ [id], ?_, by simp⟩
      have hlen : i < (s.windowPairs.set i ((s.windowPairs.getD i []) ++ [id])).length := by
        simpa using hlt
      have hget : (s.windowPairs.set i ((s.windowPairs.getD i []) ++ [id])).get ⟨i, hlen⟩
          = (s.windowPairs.getD i []) ++ [id] := by
        rw [List.get_eq_getElem, List.getElem_set]
        rw [if_pos rfl]
      have hmem := List.get_mem _ _ hlen
      rw [hget] at hmem
      exact hmem
    | none =>
      dsimp only
      exact ⟨[src, id], by simp, by simp⟩

/-- C2 counterexample: with one window `win-0` open (a reachable state),
`focusWindow("ghost")` — an id absent from the registry — is NOT a silent
no-op: it records the nonexistent id as the active window and advances
the z counter, contradicting the claim that every listed operation given
an absent id leaves the state unchanged. -/
theorem C2_absent_id_counterexample :
    Reachable st1 ∧
    (∀ w ∈ st1.windows, w.id ≠ "ghost") ∧
    st1.activeWindowId = some "win-0" ∧
    (focusWindow "ghost" st1).activeWindowId = some "ghost" ∧
    (focusWindow "ghost" st1).nextZIndex = st1.nextZIndex + 1 ∧
    focusWindow "ghost" st1 ≠ st1 := by
  refine ⟨?_, by decide, by decide, by decide, by decide, by decide⟩
  exact ReachableG.open_step notesApp none 1000 800 ReachableG.init rfl

/-- Witness for the amended C2, at the reachable one-window state `st1`
and the absent id `"ghost"` (the `completePairing` conjunct at the state
with `win-0` pending). -/
theorem C2_absent_id_amended_witness :
    updateWindowPosition "ghost" 5 6 st1 = st1 ∧
    updateWindowSize "ghost" 7 8 st1 = st1 ∧
    toggleMinimize "ghost" st1 = st1 ∧
    closeWindow "ghost" st1 = st1 ∧
    (focusWindow "ghost" st1).activeWindowId = some "ghost" ∧
    (focusWindow "ghost" st1).nextZIndex = st1.nextZIndex + 1 ∧
    toggleMaximize "ghost" st1 = focusWindow "ghost" st1 ∧
    toggleFullScreen "ghost" st1 = focusWindow "ghost" st1 ∧
    (startPairing "ghost" st1).pairingWindowId = some "ghost" ∧
    (∃ p ∈ (completePairing "ghost" (startPairing "win-0" st1)).windowPairs,
      "ghost" ∈ p) := by
  obtain ⟨h1, h2, h3, h4, h5, h6, h7, h8, h9, -⟩ :=
    C2_absent_id_amended st1 "ghost" 5 6 7 8 (by decide)
  obtain ⟨-, -, -, -, -, -, -, -, -, h10⟩ :=
    C2_absent_id_amended (startPairing "win-0" st1) "ghost" 5 6 7 8 (by decide)
  exact ⟨h1, h2, h3 (by decide), h4 (by decide) (by decide) (by decide), h5,
    h6 (by decide), h7, h8, h9 (by decide), h10 "win-0" (by decide) (by decide)⟩

/-- C3 counterexample: in the reachable state `st3` the active window
`win-0` holds zIndex 10 while the minimized `win-1` holds zIndex 11;
`focusWindow("win-0")` early-returns (line 55: the id is already active
and the launchpad is closed), so after the call `win-0`'s zIndex is NOT
strictly greater than every other window's — refuting the claim in the
"id was already the active window" case. -/
theorem C3_focus_counterexample :
    Reachable st3 ∧
    (∃ w ∈ st3.windows, w.id = "win-0") ∧
    focusWindow "win-0" st3 = st3 ∧
    ((focusWindow "win-0" st3).windows.find? (fun w => w.id == "win-0")).map (·.zIndex)
      = some 10 ∧
    ((focusWindow "win-0" st3).windows.find? (fun w => w.id == "win-1")).map (·.zIndex)
      = some 11 := by
  refine ⟨?_, by decide, by decide, by decide, by decide⟩
  exact ReachableG.minimize_step "win-1"
    (ReachableG.open_step otherApp none 1000 800
      (ReachableG.open_step notesApp none 1000 800 ReachableG.init rfl) rfl)

/-- C3 (amended): for every reachable state and id present in the
registry, `focusWindow(id)` leaves that window with the strictly-maximum
zIndex among all windows (minimized ones included) PROVIDED the call is
not the documented early-return, i.e. the id is not already active with
the launchpad closed; in the excluded case the call is a no-op and the
already-active window may keep a non-maximal zIndex. -/
theorem C3_focus_strict_top {s : OSState} (id : String)
    (hreach : Reachable s)
    (hmem : ∃ w ∈ s.windows, w.id = id)
    (hguard : ¬(s.activeWindowId = some id ∧ s.launchpadOpen = false)) :
    ∃ w ∈ (focusWindow id s).windows, w.id = id ∧
      ∀ v ∈ (focusWindow id s).windows, v.id ≠ id → v.zIndex < w.zIndex := by
  obtain ⟨hz, -, -⟩ := reachable_inv hreach
  obtain ⟨w0, hw0, hw0id⟩ := hmem
  unfold focusWindow
  rw [if_neg hguard]
  dsimp only
  refine ⟨{ w0 with zIndex := s.nextZIndex }, ?_, hw0id, ?_⟩
  · refine List.mem_map.mpr ⟨w0, hw0, ?_⟩
    rw [if_pos (by simpa using hw0id)]
  · intro v hv hvid
    rcases List.mem_map.mp hv with ⟨u, hu, rfl⟩
    by_cases huid : (u.id == id) = true
    · exfalso
      apply hvid
      rw [if_pos huid]
      simpa using huid
    · rw [if_neg huid]
      exact hz u hu

/-- Witness for the amended C3: focusing `win-0` in the two-window state
`st2` (where `win-1` is active) puts `win-0` strictly on top. -/
theorem C3_focus_strict_top_witness :
    ∃ w ∈ (focusWindow "win-0" st2).windows, w.id = "win-0" ∧
      ∀ v ∈ (focusWindow "win-0" st2).windows, v.id ≠ "win-0" → v.zIndex < w.zIndex :=
  C3_focus_strict_top "win-0"
    (ReachableG.open_step otherApp none 1000 800
      (ReachableG.open_step notesApp none 1000 800 ReachableG.init rfl) rfl)
    (by decide) (by decide)

lemma find?_map_id_pres (l : List WindowInstance) (f : WindowInstance → WindowInstance)
    (target : String) (hid : ∀ w, (f w).id = w.id) :
    (l.map f).find? (fun w => w.id == target) = (l.find? (fun w => w.id == target)).map f := by
  rw [List.find?_map]
  have hp : ((fun w : WindowInstance => w.id == target) ∘ f)
      = fun w : WindowInstance => w.id == target := by
    funext w
    simp [Function.comp, hid]
  rw [hp]

/-- `focusWindow` only rewrites the focused window's `zIndex`, so any
window observation that ignores `zIndex` is unchanged by it. -/
lemma focusWindow_find?_invariant {α : Type} (F : WindowInstance → α)
    (hF : ∀ w n, F { w with zIndex := n } = F w) (id target : String) (s : OSState) :
    ((focusWindow id s).windows.find? (fun w => w.id == target)).map F
      = (s.windows.find? (fun w => w.id == target)).map F := by
  unfold focusWindow
  split
  · rfl
  · dsimp only
    rw [find?_map_id_pres _ _ _ (fun w => by split <;> rfl)]
    cases hf : s.windows.find? (fun w => w.id == target) with
    | none => rfl
    | some w =>
      show some (F (if (w.id == id) = true then { w with zIndex := s.nextZIndex } else w))
        = some (F w)
      split
      · rw [hF w s.nextZIndex]
      · rfl

lemma fsTransform_set_zIndex (w : WindowInstance) (n : Nat) :
    fsTransform { w with zIndex := n } = { fsTransform w with zIndex := n } := by
  by_cases hfs : w.isFullScreen = true
  · cases hpm : w.preMaximizedState with
    | none => simp [fsTransform, hfs, hpm]
    | some pm => simp [fsTransform, hfs, hpm]
  · simp [fsTransform, hfs]

lemma mxTransform_set_zIndex (w : WindowInstance) (n : Nat) :
    mxTransform { w with zIndex := n } = { mxTransform w with zIndex := n } := by
  by_cases hmx : w.isMaximized = true <;> simp [mxTransform, hmx]

/-- `toggleFullScreen` observed through any `zIndex`-blind lens: the
matching window is `fsTransform` of the original. -/
lemma toggleFullScreen_find? {α : Type} (F : WindowInstance → α)
    (hF : ∀ w n, F { w with zIndex := n } = F w) (id : String) (s : OSState) :
    ((toggleFullScreen id s).windows.find? (fun v => v.id == id)).map F
      = (s.windows.find? (fun v => v.id == id)).map (fun w => F (fsTransform w)) := by
  unfold toggleFullScreen
  rw [focusWindow_find?_invariant F hF]
  dsimp only
  rw [find?_map_id_pres _ _ _
    (fun w => by by_cases h : (w.id == id) = true <;> simp [h, fsTransform_id])]
  cases hf : s.windows.find? (fun v => v.id == id) with
  | none => rfl
  | some w =>
    have hbid := List.find?_some hf
    show some (F (if (w.id == id) = true then fsTransform w else w)) = _
    rw [if_pos hbid]
    rfl

/-- `toggleMaximize` observed through any `zIndex`-blind lens: the
matching window is `mxTransform` of the original. -/
lemma toggleMaximize_find? {α : Type} (F : WindowInstance → α)
    (hF : ∀ w n, F { w with zIndex := n } = F w) (id : String) (s : OSState) :
    ((toggleMaximize id s).windows.find? (fun v => v.id == id)).map F
      = (s.windows.find? (fun v => v.id == id)).map (fun w => F (mxTransform w)) := by
  unfold toggleMaximize
  rw [focusWindow_find?_invariant F hF]
  dsimp only
  rw [find?_map_id_pres _ _ _
    (fun w => by by_cases h : (w.id == id) = true <;> simp [h, mxTransform_id])]
  cases hf : s.windows.find? (fun v => v.id == id) with
  | none => rfl
  | some w =>
    have hbid := List.find?_some hf
    show some (F (if (w.id == id) = true then mxTransform w else w)) = _
    rw [if_pos hbid]
    rfl

/-- C8 counterexample: maximize `win-0` and restore it.  The restored
window is neither maximized nor fullscreen, yet its `preMaximizedState`
is still present (no code path ever deletes the snapshot) — refuting
"present only while maximized or fullscreen". -/
theorem C8_preMax_counterexample :
    Reachable (toggleMaximize "win-0" sv2) ∧
    (((toggleMaximize "win-0" sv2).windows.find? (fun v => v.id == "win-0")).map
        (fun v => (v.isMaximized, v.isFullScreen, v.preMaximizedState))
      = some (false, false, some ⟨140, 90, 720, 540⟩)) := by
  refine ⟨?_, by decide⟩
  exact ReachableG.maximize_step "win-0"
    (ReachableG.maximize_step "win-0"
      (ReachableG.open_step notesApp none 1000 800 ReachableG.init rfl))

/-- C8 (amended): the `preMaximizedState` snapshot is never cleared: when
`toggleMaximize` restores a maximized window, and when `toggleFullScreen`
exits fullscreen, the window RETAINS its snapshot unchanged (rather than
carrying none, as the claim states). -/
theorem C8_preMax_retained (s : OSState) (id : String) (w : WindowInstance)
    (hfind : s.windows.find? (fun v => v.id == id) = some w) :
    (w.isMaximized = true →
      ((toggleMaximize id s).windows.find? (fun v => v.id == id)).map
        (·.preMaximizedState) = some w.preMaximizedState) ∧
    (w.isFullScreen = true →
      ((toggleFullScreen id s).windows.find? (fun v => v.id == id)).map
        (·.preMaximizedState) = some w.preMaximizedState) := by
  constructor
  · intro hmx
    rw [toggleMaximize_find? (fun v => v.preMaximizedState) (fun v n => rfl) id s, hfind]
    show some (mxTransform w).preMaximizedState = some w.preMaximizedState
    unfold mxTransform
    rw [if_pos hmx]
  · intro hfs
    rw [toggleFullScreen_find? (fun v => v.preMaximizedState) (fun v n => rfl) id s, hfind]
    show some (fsTransform w).preMaximizedState = some w.preMaximizedState
    unfold fsTransform
    rw [if_pos hfs]
    cases w.preMaximizedState <;> rfl

/-- Witness for the amended C8 at the reachable state `sv4`, whose window
`win-0` is both maximized and fullscreen with snapshot
`(140, 90, 720, 540)`: both restore paths keep the snapshot. -/
theorem C8_preMax_retained_witness :
    (((toggleMaximize "win-0" sv4).windows.find? (fun v => v.id == "win-0")).map
        (·.preMaximizedState) = some (some ⟨140, 90, 720, 540⟩)) ∧
    (((toggleFullScreen "win-0" sv4).windows.find? (fun v => v.id == "win-0")).map
        (·.preMaximizedState) = some (some ⟨140, 90, 720, 540⟩)) := by
  have h := C8_preMax_retained sv4 "win-0"
    { id := "win-0", appId := "notes", title := "Notes", x := 200, y := 300,
      width := 720, height := 540, zIndex := 10, isMinimized := false,
      isMaximized := true, isFullScreen := true,
      preMaximizedState := some ⟨140, 90, 720, 540⟩, filePath := none }
    (by decide)
  exact ⟨h.1 rfl, h.2 rfl⟩

/-- C7 counterexample: maximize `win-0` (snapshot (140, 90, 720, 540)),
drag it to (200, 300), then toggle fullscreen twice.  The pre-fullscreen
position was (200, 300), but the double toggle restores (140, 90) — the
pre-MAXIMIZE snapshot, not the exact pre-fullscreen bounds. -/
theorem C7_fullscreen_counterexample :
    Reachable sv3 ∧
    ((sv3.windows.find? (fun v => v.id == "win-0")).map
        (fun v => (v.x, v.y, v.isFullScreen)) = some (200, 300, false)) ∧
    toggleFullScreen "win-0" (toggleFullScreen "win-0" sv3) = sv5 ∧
    ((sv5.windows.find? (fun v => v.id == "win-0")).map (fun v => (v.x, v.y))
      = some (140, 90)) := by
  refine ⟨?_, by decide, by decide, by decide⟩
  exact ReachableG.move_step "win-0" 200 300
    (ReachableG.maximize_step "win-0"
      (ReachableG.open_step notesApp none 1000 800 ReachableG.init rfl))

/-- C7 (amended): toggling fullscreen twice in succession restores the
exact pre-fullscreen `{x, y, width, height}` when the window was NOT
maximized on entry (a fresh snapshot is captured); when it was already
maximized, the existing pre-maximize snapshot is preserved and the double
toggle restores THOSE bounds — which coincide with the pre-fullscreen
bounds only if the window was not moved or resized while maximized. -/
theorem C7_fullscreen_roundtrip (s : OSState) (id : String) (w : WindowInstance)
    (hfind : s.windows.find? (fun v => v.id == id) = some w)
    (hnofs : w.isFullScreen = false) :
    (w.isMaximized = false →
      ((toggleFullScreen id (toggleFullScreen id s)).windows.find?
          (fun v => v.id == id)).map (fun v => (v.x, v.y, v.width, v.height))
        = some (w.x, w.y, w.width, w.height)) ∧
    (∀ pm, w.isMaximized = true → w.preMaximizedState = some pm →
      ((toggleFullScreen id (toggleFullScreen id s)).windows.find?
          (fun v => v.id == id)).map (fun v => (v.x, v.y, v.width, v.height))
        = some (pm.x, pm.y, pm.width, pm.height)) := by
  have h1 := toggleFullScreen_find?
    (fun v : WindowInstance => (v.x, v.y, v.width, v.height))
    (fun v n => rfl) id (toggleFullScreen id s)
  have h2 := toggleFullScreen_find?
    (fun v : WindowInstance =>
      ((fsTransform v).x, (fsTransform v).y, (fsTransform v).width, (fsTransform v).height))
    (fun v n => by simp [fsTransform_set_zIndex]) id s
  rw [h1, h2, hfind]
  constructor
  · intro hmx
    simp [fsTransform, hnofs, hmx]
  · intro pm hmx hpm
    simp [fsTransform, hnofs, hmx, hpm]

/-- Witness for the amended C7: a double fullscreen toggle on the
unmaximized `st1` window restores its bounds exactly, and on the
maximized-and-moved `sv3` window restores the pre-maximize snapshot. -/
theorem C7_fullscreen_roundtrip_witness :
    (((toggleFullScreen "win-0" (toggleFullScreen "win-0" st1)).windows.find?
        (fun v => v.id == "win-0")).map (fun v => (v.x, v.y, v.width, v.height))
      = some (140, 90, 720, 540)) ∧
    (((toggleFullScreen "win-0" (toggleFullScreen "win-0" sv3)).windows.find?
        (fun v => v.id == "win-0")).map (fun v => (v.x, v.y, v.width, v.height))
      = some (140, 90, 720, 540)) := by
  constructor
  · exact (C7_fullscreen_roundtrip st1 "win-0"
      { id := "win-0", appId := "notes", title := "Notes", x := 140, y := 90,
        width := 720, height := 540, zIndex := 10, isMinimized := false,
        isMaximized := false, isFullScreen := false,
        preMaximizedState := none, filePath := none }
      (by decide) rfl).1 rfl
  · exact (C7_fullscreen_roundtrip sv3 "win-0"
      { id := "win-0", appId := "notes", title := "Notes", x := 200, y := 300,
        width := 720, height := 540, zIndex := 10, isMinimized := false,
        isMaximized := true, isFullScreen := false,
        preMaximizedState := some ⟨140, 90, 720, 540⟩, filePath := none }
      (by decide) rfl).2 ⟨140, 90, 720, 540⟩ rfl rfl

/-- C1 counterexample: pair `win-0` with `win-1`, then start a pairing on
`win-2` and complete it on `win-0`.  The target's existing pair is not
checked, so `win-0` ends up in the two overlapping records
`["win-0","win-1"]` and `["win-2","win-0"]` — the at-most-one-pair
invariant fails in a reachable state. -/
theorem C1_pair_overlap_counterexample :
    Reachable su5 ∧
    su5.windowPairs = [["win-0", "win-1"], ["win-2", "win-0"]] ∧
    ¬ PairsDisjoint su5.windowPairs := by
  refine ⟨?_, by decide, by unfold PairsDisjoint; decide⟩
  exact ReachableG.completePairing_step "win-0"
    (ReachableG.startPairing_step "win-2"
      (ReachableG.completePairing_step "win-1"
        (ReachableG.startPairing_step "win-0"
          (ReachableG.open_step miscApp none 1000 800
            (ReachableG.open_step otherApp none 1000 800
              (ReachableG.open_step notesApp none 1000 800 ReachableG.init rfl)
              rfl) rfl))))

/-- C1 (amended): the pair records stay pairwise disjoint across
`completePairing(targetId)` exactly when the target belongs to no
existing pair at completion time; when the target is already paired the
operation records it in a second, overlapping pair (no dissolution is
attempted). -/
theorem C1_completePairing_disjoint (s : OSState) (targetId : String)
    (hdisj : PairsDisjoint s.windowPairs)
    (htgt : ∀ p ∈ s.windowPairs, targetId ∉ p) :
    PairsDisjoint (completePairing targetId s).windowPairs := by
  unfold completePairing
  cases hpd : s.pairingWindowId with
  | none => exact hdisj
  | some src =>
    dsimp only
    by_cases hst : src ≠ targetId
    · rw [if_pos hst]
      cases hfi : s.windowPairs.findIdx? (fun p : List String => p.contains src) with
      | some i =>
        obtain ⟨hlen, hidx⟩ := List.findIdx?_eq_some_iff_findIdx_eq.mp hfi
        show PairsDisjoint (s.windowPairs.set i (s.windowPairs.getD i [] ++ [targetId]))
        have hgetD : s.windowPairs.getD i [] = s.windowPairs[i] := by
          simp [List.getD_eq_getElem?_getD, List.getElem?_eq_getElem hlen]
        rw [hgetD]
        unfold PairsDisjoint at hdisj ⊢
        rw [List.pairwise_iff_getElem] at hdisj ⊢
        intro a b ha hb hab
        rw [List.length_set] at ha hb
        intro x hx hxin
        rw [List.getElem_set] at hx hxin
        by_cases hia : i = a
        · subst hia
          have hib : ¬ i = b := by omega
          rw [if_pos rfl] at hx
          rw [if_neg hib] at hxin
          rcases List.mem_append.mp hx with hx | hx
          · exact hdisj i b ha hb hab x hx hxin
          · rcases List.mem_singleton.mp hx with rfl
            have hb2 : b < s.windowPairs.length := by simpa using hb
            exact htgt _ (List.getElem_mem hb2) hxin
        · by_cases hib : i = b
          · subst hib
            rw [if_neg hia] at hx
            rw [if_pos rfl] at hxin
            rcases List.mem_append.mp hxin with hxin | hxin
            · exact hdisj a i ha hb hab x hx hxin
            · rcases List.mem_singleton.mp hxin with rfl
              have ha2 : a < s.windowPairs.length := by simpa using ha
              exact htgt _ (List.getElem_mem ha2) hx
          · rw [if_neg hia] at hx
            rw [if_neg hib] at hxin
            exact hdisj a b ha hb hab x hx hxin
      | none =>
        show PairsDisjoint (s.windowPairs ++ [[src, targetId]])
        unfold PairsDisjoint at hdisj ⊢
        rw [List.pairwise_append]
        refine ⟨hdisj, by simp, ?_⟩
        intro p hp q hq x hxp hxq
        rcases List.mem_singleton.mp hq with rfl
        have hnosrc := List.findIdx?_eq_none_iff.mp hfi p hp
        rcases List.mem_cons.mp hxq with rfl | hxq
        · rw [contains_iff_mem.mpr hxp] at hnosrc
          exact absurd hnosrc (by simp)
        · rcases List.mem_singleton.mp hxq with rfl
          exact htgt p hp hxp
    · rw [if_neg hst]
      exact hdisj

/-- Witness for the amended C1: completing the pairing of `win-0` onto
the unpaired `win-1` in the three-window state keeps the pair set
disjoint. -/
theorem C1_completePairing_disjoint_witness :
    PairsDisjoint (completePairing "win-1" (startPairing "win-0" su3)).windowPairs :=
  C1_completePairing_disjoint (startPairing "win-0" su3) "win-1"
    (by unfold PairsDisjoint; decide) (by decide)

lemma mem_pairGroup_self (s : OSState) (id : String) : id ∈ pairGroup s id := by
  unfold pairGroup
  cases hf : s.windowPairs.find? (fun p => p.contains id) with
  | none => simp
  | some p =>
    have hc := List.find?_some hf
    simpa using hc

/-- C5 counterexample: in the reachable overlapping-pairs state `su5`,
the pair `["win-2","win-0"]` contains both `win-2` and `win-0`, yet
moving `win-0` (delta (160, 310) ≠ 0) moves only the FIRST pair
containing it (`["win-0","win-1"]`): `win-2` keeps its position, so not
every member of a pair containing the moved window receives the delta. -/
theorem C5_move_overlap_counterexample :
    Reachable su5 ∧
    (["win-2", "win-0"] ∈ su5.windowPairs ∧ ("win-0" : String) ∈ (["win-2", "win-0"] : List String)) ∧
    ((su5.windows.find? (fun w => w.id == "win-0")).map (fun w => (w.x, w.y))
      = some (140, 90)) ∧
    ((su5.windows.find? (fun w => w.id == "win-2")).map (fun w => (w.x, w.y))
      = some (190, 140)) ∧
    (((updateWindowPosition "win-0" 300 400 su5).windows.find?
        (fun w => w.id == "win-0")).map (fun w => (w.x, w.y)) = some (300, 400)) ∧
    (((updateWindowPosition "win-0" 300 400 su5).windows.find?
        (fun w => w.id == "win-2")).map (fun w => (w.x, w.y)) = some (190, 140)) := by
  refine ⟨?_, by decide, by decide, by decide, by decide, by decide⟩
  exact ReachableG.completePairing_step "win-0"
    (ReachableG.startPairing_step "win-2"
      (ReachableG.completePairing_step "win-1"
        (ReachableG.startPairing_step "win-0"
          (ReachableG.open_step miscApp none 1000 800
            (ReachableG.open_step otherApp none 1000 800
              (ReachableG.open_step notesApp none 1000 800 ReachableG.init rfl)
              rfl) rfl))))

/-- C5 (amended): `updateWindowPosition(A, newX, newY)` moves every
member of the FIRST pair record containing A (or A alone when A is in no
pair) by the identical delta `(newX - A.x, newY - A.y)` and leaves every
other window exactly unchanged; the mover itself lands exactly on
`(newX, newY)`.  When A belongs to at most one pair this is the pair the
claim speaks of; with overlapping records only the first one moves. -/
theorem C5_move_pair_delta (s : OSState) (id : String) (mover : WindowInstance)
    (newX newY : Int)
    (hfind : s.windows.find? (fun w => w.id == id) = some mover) :
    List.Forall₂ (fun w w' =>
        w'.id = w.id ∧ w'.zIndex = w.zIndex ∧ w'.isMinimized = w.isMinimized ∧
        (((pairGroup s id).contains w.id = true →
            w'.x = w.x + (newX - mover.x) ∧ w'.y = w.y + (newY - mover.y)) ∧
          ((pairGroup s id).contains w.id = false → w' = w)))
      s.windows (updateWindowPosition id newX newY s).windows ∧
    ∃ w' ∈ (updateWindowPosition id newX newY s).windows,
      w'.id = id ∧ w'.x = newX ∧ w'.y = newY := by
  have hmoverid := List.find?_some hfind
  have hwin : (updateWindowPosition id newX newY s).windows
      = s.windows.map (fun win =>
          if (pairGroup s id).contains win.id then
            { win with x := win.x + (newX - mover.x), y := win.y + (newY - mover.y) }
          else win) := by
    unfold updateWindowPosition
    rw [hfind]
  constructor
  · rw [hwin]
    rw [List.forall₂_map_right_iff]
    apply List.forall₂_same.mpr
    intro w hw
    by_cases hc : ((pairGroup s id).contains w.id) = true
    · rw [if_pos hc]
      exact ⟨rfl, rfl, rfl, fun _ => ⟨rfl, rfl⟩, fun hfalse => by rw [hc] at hfalse; cases hfalse⟩
    · rw [if_neg hc]
      refine ⟨rfl, rfl, rfl, fun htrue => absurd htrue hc, fun _ => rfl⟩
  · rw [hwin]
    refine ⟨_, List.mem_map.mpr ⟨mover, List.mem_of_find?_eq_some hfind, rfl⟩, ?_⟩
    have hcm : ((pairGroup s id).contains mover.id) = true := by
      rw [show mover.id = id from by simpa using hmoverid]
      exact contains_iff_mem.mpr (mem_pairGroup_self s id)
    rw [if_pos hcm]
    refine ⟨by simpa using hmoverid, by ring, by ring⟩

/-- Witness for the amended C5 at the paired state `st4`: moving `win-0`
to (200, 100) moves `win-1` by the same delta (60, 10) and lands `win-0`
exactly on the target. -/
theorem C5_move_pair_delta_witness :
    (List.Forall₂ (fun w w' =>
        w'.id = w.id ∧ w'.zIndex = w.zIndex ∧ w'.isMinimized = w.isMinimized ∧
        (((pairGroup st4 "win-0").contains w.id = true →
            w'.x = w.x + (200 - 140) ∧ w'.y = w.y + (100 - 90)) ∧
          ((pairGroup st4 "win-0").contains w.id = false → w' = w)))
      st4.windows (updateWindowPosition "win-0" 200 100 st4).windows) ∧
    ∃ w' ∈ (updateWindowPosition "win-0" 200 100 st4).windows,
      w'.id = "win-0" ∧ w'.x = 200 ∧ w'.y = 100 :=
  C5_move_pair_delta st4 "win-0"
    { id := "win-0", appId := "notes", title := "Notes", x := 140, y := 90,
      width := 720, height := 540, zIndex := 10, isMinimized := false,
      isMaximized := false, isFullScreen := false,
      preMaximizedState := none, filePath := none }
    200 100 (by decide)

lemma contains_cons_of_ne {x g : String} {gs : List String} (h : x ≠ g) :
    ((g :: gs).contains x) = gs.contains x := by
  simp [List.contains_cons, h]

lemma focusGuard_bool_iff (s : OSState) (g : String) (w : WindowInstance) :
    (w.isMinimized && !(s.activeWindowId == some g && !s.launchpadOpen)) = true
      ↔ (w.isMinimized ∧ ¬(s.activeWindowId = some g ∧ s.launchpadOpen = false)) := by
  simp [Bool.and_eq_true]
  tauto

/-- Net effect of `toggleMinimize`'s updater over a duplicate-free group:
every window whose id belongs to the group is flipped once, and the
collected focus list is exactly `focusedOf` read off the entry windows.
Reachable groups (a two-member pair of distinct ids, or a singleton) are
always duplicate-free. -/
lemma minimizeFoldList_spec (s : OSState) :
    ∀ (group : List String) (ws : List WindowInstance) (f0 : List String) (b0 : Bool),
      group.Nodup →
      (group.foldl (minimizeFold s) (ws, f0, b0)).1
          = ws.map (fun w => if group.contains w.id then flipMin w else w) ∧
      (group.foldl (minimizeFold s) (ws, f0, b0)).2.1
          = f0 ++ group.filter (fun g =>
              match ws.find? (fun w => w.id == g) with
              | some w => w.isMinimized && !(s.activeWindowId == some g && !s.launchpadOpen)
              | none => false) := by
  intro group
  induction group with
  | nil =>
    intro ws f0 b0 _
    refine ⟨?_, by simp⟩
    rw [map_fixed_eq_self (fun x _ => by simp)]
    rfl
  | cons g gs ih =>
    intro ws f0 b0 hnd
    obtain ⟨hg, hnd2⟩ := List.nodup_cons.mp hnd
    rw [List.foldl_cons]
    cases hfg : ws.find? (fun w => w.id == g) with
    | none =>
      have hstep : minimizeFold s (ws, f0, b0) g = (ws, f0, b0) := by
        unfold minimizeFold
        rw [hfg]
      rw [hstep]
      obtain ⟨h1, h2⟩ := ih ws f0 b0 hnd2
      have hnone := List.find?_eq_none.mp hfg
      refine ⟨?_, ?_⟩
      · rw [h1]
        apply List.map_congr_left
        intro w hw
        have hne : w.id ≠ g := by simpa using hnone w hw
        rw [contains_cons_of_ne hne]
      · rw [h2]
        congr 1
        rw [List.filter_cons, hfg]
        simp
    | some w =>
      have hstep : minimizeFold s (ws, f0, b0) g
          = (ws.map (fun win => if win.id == g then flipMin win else win),
             (if w.isMinimized ∧ ¬(s.activeWindowId = some g ∧ s.launchpadOpen = false)
              then f0 ++ [g] else f0),
             b0 || w.isFullScreen) := by
        unfold minimizeFold
        rw [hfg]
      rw [hstep]
      obtain ⟨h1, h2⟩ := ih (ws.map fun win => if win.id == g then flipMin win else win)
        (if w.isMinimized ∧ ¬(s.activeWindowId = some g ∧ s.launchpadOpen = false)
         then f0 ++ [g] else f0) (b0 || w.isFullScreen) hnd2
      refine ⟨?_, ?_⟩
      · rw [h1, List.map_map]
        apply List.map_congr_left
        intro v _
        show (if gs.contains (if (v.id == g) = true then flipMin v else v).id = true
              then flipMin (if (v.id == g) = true then flipMin v else v)
              else (if (v.id == g) = true then flipMin v else v))
            = if ((g :: gs).contains v.id) = true then flipMin v else v
        by_cases hvg : (v.id == g) = true
        · rw [if_pos hvg]
          have hveq : v.id = g := by simpa using hvg
          have hnotgs : gs.contains (flipMin v).id = false := by
            show gs.contains v.id = false
            rw [hveq]
            simpa using hg
          rw [hnotgs]
          have hcons : ((g :: gs).contains v.id) = true := by
            rw [hveq]
            simp [List.contains_cons]
          rw [hcons]
          simp
        · rw [if_neg hvg]
          have hveq : v.id ≠ g := by simpa using hvg
          rw [contains_cons_of_ne hveq]
      · rw [h2]
        have hfix : ∀ g2, g2 ∈ gs →
            (ws.map fun win => if win.id == g then flipMin win else win).find?
                (fun w2 => w2.id == g2)
              = ws.find? (fun w2 => w2.id == g2) := by
          intro g2 hg2
          have hgg2 : g2 ≠ g := fun h => hg (h ▸ hg2)
          apply find?_map_id_fixed
          · intro w2
            split <;> rfl
          · intro w2 hw2
            rw [if_neg (by simp [hw2, hgg2])]
        have hfilter : (gs.filter fun g2 =>
              match (ws.map fun win => if win.id == g then flipMin win else win).find?
                  (fun w2 => w2.id == g2) with
              | some w2 => w2.isMinimized && !(s.activeWindowId == some g2 && !s.launchpadOpen)
              | none => false)
            = gs.filter fun g2 =>
              match ws.find? (fun w2 => w2.id == g2) with
              | some w2 => w2.isMinimized && !(s.activeWindowId == some g2 && !s.launchpadOpen)
              | none => false := by
          apply List.filter_congr
          intro g2 hg2
          rw [hfix g2 hg2]
        rw [hfilter, List.filter_cons, hfg]
        by_cases hc : w.isMinimized ∧ ¬(s.activeWindowId = some g ∧ s.launchpadOpen = false)
        · rw [if_pos hc, if_pos ((focusGuard_bool_iff s g w).mpr hc)]
          simp
        · rw [if_neg hc,
            if_neg (fun hb => hc ((focusGuard_bool_iff s g w).mp hb))]

lemma pairGroup_nodup {s : OSState} (hinv : StateInv s) (id : String) :
    (pairGroup s id).Nodup := by
  obtain ⟨-, hp, -⟩ := hinv
  unfold pairGroup
  cases hf : s.windowPairs.find? (fun p => p.contains id) with
  | none => simp
  | some p =>
    obtain ⟨a, b, rfl, hab⟩ := hp p (List.mem_of_find?_eq_some hf)
    simp [hab]

lemma minimizeRun_spec {s : OSState} (id : String) (h : (pairGroup s id).Nodup) :
    (minimizeRun s id).1
        = s.windows.map (fun w => if (pairGroup s id).contains w.id then flipMin w else w) ∧
    (minimizeRun s id).2.1 = focusedOf s (pairGroup s id) := by
  have hspec := minimizeFoldList_spec s (pairGroup s id) s.windows [] false h
  exact ⟨hspec.1, hspec.2⟩

/-- C4 counterexample: in the reachable state `st7` the two candidate
windows `win-0` and `win-1` share `zIndex` 12; minimizing the active
`win-2` makes the code's reduce pick the LAST of them (`win-1`), while
the claim's first-encountered tie-break would pick `win-0`. -/
theorem C4_tiebreak_counterexample :
    Reachable st7 ∧
    st7.activeWindowId = some "win-2" ∧
    pairGroup st7 "win-2" = ["win-2"] ∧
    ((st7.windows.find? (fun w => w.id == "win-2")).map (·.isMinimized) = some false) ∧
    ((st7.windows.filter fun w =>
        !(pairGroup st7 "win-2").contains w.id && !w.isMinimized).map
        (fun w => (w.id, w.zIndex)) = [("win-0", 12), ("win-1", 12)]) ∧
    (toggleMinimize "win-2" st7).activeWindowId = some "win-1" ∧
    ((firstTopSpec (st7.windows.filter fun w =>
        !(pairGroup st7 "win-2").contains w.id && !w.isMinimized)).map (·.id)
      = some "win-0") ∧
    ("win-1" : String) ≠ "win-0" := by
  refine ⟨?_, by decide, by decide, by decide, by decide, by decide, by decide, by decide⟩
  exact ReachableG.open_step miscApp none 1000 800
    (ReachableG.open_step notesApp none 1000 800
      (ReachableG.minimize_step "win-0"
        (ReachableG.completePairing_step "win-1"
          (ReachableG.startPairing_step "win-0"
            (ReachableG.open_step otherApp none 1000 800
              (ReachableG.open_step notesApp none 1000 800 ReachableG.init rfl)
              rfl)))) rfl) rfl

/-- C4 (amended): when the affected group contains the active window,
`closeWindow` recomputes the active id as the greatest-`zIndex`
non-minimized survivor with the LAST-encountered window winning ties (or
none when no candidate remains); a minimizing `toggleMinimize` does the
same over the windows outside the group that were not minimized before
the call, except that when some group member is routed through a
non-early-returning `focusWindow` (it was minimized and is being
un-minimized), the last such member becomes the active window instead. -/
theorem C4_active_recompute (s : OSState) (id aid : String)
    (hreach : Reachable s)
    (hactive : s.activeWindowId = some aid)
    (hgroup : aid ∈ pairGroup s id) :
    ActiveMatchesTop (closeWindow id s).activeWindowId
      ((closeWindow id s).windows.filter fun w => !w.isMinimized) ∧
    (∀ wc, s.windows.find? (fun w => w.id == id) = some wc → wc.isMinimized = false →
      ((focusedOf s (pairGroup s id) = [] →
          ActiveMatchesTop (toggleMinimize id s).activeWindowId
            (s.windows.filter fun w =>
              !(pairGroup s id).contains w.id && !w.isMinimized)) ∧
        (∀ f, (focusedOf s (pairGroup s id)).getLast? = some f →
          (toggleMinimize id s).activeWindowId = some f))) := by
  have hcont : ((pairGroup s id).contains (s.activeWindowId.getD "")) = true := by
    rw [hactive]
    exact contains_iff_mem.mpr hgroup
  constructor
  · have hact : (closeWindow id s).activeWindowId
        = (lastTop (s.windows.filter fun w =>
            !(pairGroup s id).contains w.id && !w.isMinimized)).map (·.id) := by
      unfold closeWindow
      dsimp only
      rw [if_pos hcont]
    have hlist : ((closeWindow id s).windows.filter fun w => !w.isMinimized)
        = s.windows.filter fun w =>
            !(pairGroup s id).contains w.id && !w.isMinimized := by
      show ((s.windows.filter fun w => !(pairGroup s id).contains w.id).filter
          fun w => !w.isMinimized) = _
      rw [List.filter_filter]
      apply List.filter_congr
      intro w _
      rw [Bool.and_comm]
    rw [hact, hlist]
    exact activeMatchesTop_lastTop _
  · intro wc hfindc hwcmin
    have hinv := reachable_inv hreach
    have hnd := pairGroup_nodup hinv id
    obtain ⟨hrw, hrf⟩ := minimizeRun_spec id hnd
    have hact1 : (toggleMinimize id s).activeWindowId
        = match (minimizeRun s id).2.1.getLast? with
          | some fid => some fid
          | none =>
            if (match s.windows.find? (fun w => w.id == id) with
                | some w => !w.isMinimized
                | none => false) && (pairGroup s id).contains (s.activeWindowId.getD "")
            then
              (lastTop (s.windows.filter fun w =>
                !(pairGroup s id).contains w.id && !w.isMinimized)).map (·.id)
            else s.activeWindowId := rfl
    constructor
    · intro hempty
      have hcond : ((match s.windows.find? (fun w => w.id == id) with
          | some w => !w.isMinimized
          | none => false) && (pairGroup s id).contains (s.activeWindowId.getD ""))
            = true := by
        rw [hfindc]
        dsimp only
        rw [hwcmin, hcont]
        rfl
      rw [hact1, hrf, hempty]
      simp only [List.getLast?_nil]
      rw [if_pos hcond]
      exact activeMatchesTop_lastTop _
    · intro f hlast
      rw [hact1, hrf, hlast]

/-- Witness for the amended C4 at `st7` (active `win-2`, unpaired):
closing it and minimizing it both recompute the active id by the
last-maximum rule over the surviving candidates. -/
theorem C4_active_recompute_witness :
    ActiveMatchesTop (closeWindow "win-2" st7).activeWindowId
      ((closeWindow "win-2" st7).windows.filter fun w => !w.isMinimized) ∧
    ActiveMatchesTop (toggleMinimize "win-2" st7).activeWindowId
      (st7.windows.filter fun w =>
        !(pairGroup st7 "win-2").contains w.id && !w.isMinimized) := by
  have hr : Reachable st7 :=
    ReachableG.open_step miscApp none 1000 800
      (ReachableG.open_step notesApp none 1000 800
        (ReachableG.minimize_step "win-0"
          (ReachableG.completePairing_step "win-1"
            (ReachableG.startPairing_step "win-0"
              (ReachableG.open_step otherApp none 1000 800
                (ReachableG.open_step notesApp none 1000 800 ReachableG.init rfl)
                rfl)))) rfl) rfl
  have h := C4_active_recompute st7 "win-2" "win-2" hr (by decide) (by decide)
  refine ⟨h.1, ?_⟩
  exact (h.2
    { id := "win-2", appId := "misc", title := "Misc", x := 190, y := 140,
      width := 720, height := 540, zIndex := 14, isMinimized := false,
      isMaximized := false, isFullScreen := false,
      preMaximizedState := none, filePath := none }
    (by decide) rfl).1 (by decide)

lemma fsTransform_appId (w : WindowInstance) : (fsTransform w).appId = w.appId := by
  unfold fsTransform
  split
  · cases w.preMaximizedState <;> rfl
  · rfl

lemma mxTransform_appId (w : WindowInstance) : (mxTransform w).appId = w.appId := by
  unfold mxTransform
  split <;> rfl

lemma appCount_map {a : String} {l : List WindowInstance} {f : WindowInstance → WindowInstance}
    (hf : ∀ w, (f w).appId = w.appId) : appCount a (l.map f) = appCount a l := by
  unfold appCount
  rw [List.countP_map]
  congr 1
  funext w
  simp [Function.comp, hf]

lemma appCount_minimizeFoldList (s : OSState) (a : String) (gs : List String) :
    ∀ acc : List WindowInstance × List String × Bool,
      appCount a (gs.foldl (minimizeFold s) acc).1 = appCount a acc.1 := by
  induction gs with
  | nil => intro acc; rfl
  | cons g gs ih =>
    intro acc
    rw [List.foldl_cons, ih]
    unfold minimizeFold
    split
    · rfl
    · exact appCount_map (fun w => by split <;> rfl)

lemma appCount_bumpFoldList (s : OSState) (a : String) (fids : List String) :
    ∀ l, appCount a (fids.foldl (bumpFold s) l) = appCount a l := by
  induction fids with
  | nil => intro l; rfl
  | cons f fids ih =>
    intro l
    rw [List.foldl_cons, ih]
    exact appCount_map (fun w => by split <;> rfl)

lemma appCount_focusWindow (a id : String) (s : OSState) :
    appCount a (focusWindow id s).windows = appCount a s.windows := by
  unfold focusWindow
  split
  · rfl
  · exact appCount_map (fun w => by split <;> rfl)

lemma appCount_toggleMinimize (a id : String) (s : OSState) :
    appCount a (toggleMinimize id s).windows = appCount a s.windows := by
  show appCount a ((minimizeRun s id).2.1.foldl (bumpFold s) (minimizeRun s id).1) = _
  rw [appCount_bumpFoldList]
  exact appCount_minimizeFoldList s a (pairGroup s id) (s.windows, [], false)

lemma appCount_toggleFullScreen (a id : String) (s : OSState) :
    appCount a (toggleFullScreen id s).windows = appCount a s.windows := by
  unfold toggleFullScreen
  rw [appCount_focusWindow]
  exact appCount_map (fun w => by
    split
    · exact fsTransform_appId w
    · rfl)

lemma appCount_toggleMaximize (a id : String) (s : OSState) :
    appCount a (toggleMaximize id s).windows = appCount a s.windows := by
  unfold toggleMaximize
  rw [appCount_focusWindow]
  exact appCount_map (fun w => by
    split
    · exact mxTransform_appId w
    · rfl)

lemma appCount_updateWindowPosition (a id : String) (nx ny : Int) (s : OSState) :
    appCount a (updateWindowPosition id nx ny s).windows = appCount a s.windows := by
  unfold updateWindowPosition
  split
  · rfl
  · exact appCount_map (fun w => by split <;> rfl)

lemma appCount_updateWindowSize (a id : String) (nw nh : Int) (s : OSState) :
    appCount a (updateWindowSize id nw nh s).windows = appCount a s.windows :=
  appCount_map (fun w => by split <;> rfl)

lemma startPairing_windows (id : String) (s : OSState) :
    (startPairing id s).windows = s.windows := by
  unfold startPairing
  split <;> rfl

lemma completePairing_windows (id : String) (s : OSState) :
    (completePairing id s).windows = s.windows := by
  unfold completePairing
  cases s.pairingWindowId with
  | none => rfl
  | some src =>
    dsimp only
    split
    · split <;> rfl
    · rfl

lemma appCount_closeWindow_le (a id : String) (s : OSState) :
    appCount a (closeWindow id s).windows ≤ appCount a s.windows :=
  (List.filter_sublist _).countP_le _

lemma appCount_openApp_le {a : String} (app : AppDefinition) (fp : Option String)
    (iw ihh : Int) {s : OSState}
    (hok : (!(app.id == a) || !app.allowMultiInstance) = true)
    (hc : appCount a s.windows ≤ 1) :
    appCount a (openApp app fp iw ihh s).windows ≤ 1 := by
  unfold openApp
  cases hfind : s.windows.find?
      (fun win => win.appId == app.id && !app.allowMultiInstance) with
  | some existing =>
    dsimp only
    have hbase : appCount a (if existing.isMinimized
        then toggleMinimize existing.id s
        else focusWindow existing.id s).windows ≤ 1 := by
      split
      · rw [appCount_toggleMinimize]
        exact hc
      · rw [appCount_focusWindow]
        exact hc
    cases fp with
    | some fpath =>
      rw [appCount_map (fun w => by split <;> rfl)]
      exact hbase
    | none => exact hbase
  | none =>
    dsimp only
    unfold appCount
    rw [List.countP_append, List.countP_cons]
    by_cases hida : app.id = a
    · have hzero : s.windows.countP (fun w => w.appId == a) = 0 := by
        apply List.countP_eq_zero.mpr
        intro w hw
        have hmulti : app.allowMultiInstance = false := by
          simp [hida] at hok
          exact hok
        have hnw := List.find?_eq_none.mp hfind w hw
        simp [hmulti] at hnw
        simp [hida ▸ hnw]
      rw [hzero]
      split <;> simp
    · rw [if_neg (by simpa using hida)]
      have hc2 := hc
      unfold appCount at hc2
      simpa using hc2

/-- Under sequences whose `openApp` calls for application `a` all carry a
disabled multi-instance flag, at most one window of `a` ever exists. -/
theorem appCountSI_le_one {a : String} {s : OSState} (h : ReachableSI a s) :
    appCount a s.windows ≤ 1 := by
  induction h with
  | init => simp [appCount, initState]
  | open_step app fp iw ihh _ hok ihc => exact appCount_openApp_le app fp iw ihh hok ihc
  | close_step id _ ihc => exact le_trans (appCount_closeWindow_le a id _) ihc
  | focus_step id _ ihc => rw [appCount_focusWindow]; exact ihc
  | minimize_step id _ ihc => rw [appCount_toggleMinimize]; exact ihc
  | maximize_step id _ ihc => rw [appCount_toggleMaximize]; exact ihc
  | fullscreen_step id _ ihc => rw [appCount_toggleFullScreen]; exact ihc
  | move_step id nx ny _ ihc => rw [appCount_updateWindowPosition]; exact ihc
  | resize_step id nw nh _ ihc => rw [appCount_updateWindowSize]; exact ihc
  | startPairing_step id _ ihc => rw [startPairing_windows]; exact ihc
  | completePairing_step id _ ihc => rw [completePairing_windows]; exact ihc
  | launchpad_step _ ihc => exact ihc
  | launchpadClose_step _ ihc => exact ihc
  | desktop_step _ ihc =>
    unfold desktopClick
    split <;> exact ihc

lemma eq_of_countP_le_one {α : Type} {p : α → Bool} {l : List α} (hc : l.countP p ≤ 1)
    {x y : α} (hx : x ∈ l) (hy : y ∈ l) (hpx : p x = true) (hpy : p y = true) :
    x = y := by
  induction l with
  | nil => cases hx
  | cons hd t ih =>
    rw [List.countP_cons] at hc
    rcases List.mem_cons.mp hx with rfl | hx2 <;> rcases List.mem_cons.mp hy with rfl | hy2
    · rfl
    · exfalso
      rw [hpx, if_pos rfl] at hc
      have hpos := List.countP_pos.mpr ⟨y, hy2, hpy⟩
      omega
    · exfalso
      rw [hpy, if_pos rfl] at hc
      have hpos := List.countP_pos.mpr ⟨x, hx2, hpx⟩
      omega
    · exact ih (le_trans (Nat.le_add_right _ _) hc) hx2 hy2

lemma bumpFoldList_mem (s : OSState) (fids : List String) :
    ∀ (l : List WindowInstance) (w : WindowInstance), w ∈ l →
      ∃ w2 ∈ fids.foldl (bumpFold s) l,
        w2.id = w.id ∧ w2.appId = w.appId ∧ w2.filePath = w.filePath ∧
          w2.isMinimized = w.isMinimized := by
  induction fids with
  | nil => exact fun l w hw => ⟨w, hw, rfl, rfl, rfl, rfl⟩
  | cons f fids ih =>
    intro l w hw
    rw [List.foldl_cons]
    have himg : (if (w.id == f) = true then { w with zIndex := s.nextZIndex } else w)
        ∈ bumpFold s l f := List.mem_map_of_mem _ hw
    obtain ⟨w2, hmem, h1, h2, h3, h4⟩ := ih (bumpFold s l f) _ himg
    have hid : (if (w.id == f) = true then { w with zIndex := s.nextZIndex } else w).id
        = w.id := by split <;> rfl
    have happ : (if (w.id == f) = true then { w with zIndex := s.nextZIndex } else w).appId
        = w.appId := by split <;> rfl
    have hfp : (if (w.id == f) = true then { w with zIndex := s.nextZIndex } else w).filePath
        = w.filePath := by split <;> rfl
    have hmin : (if (w.id == f) = true then { w with zIndex := s.nextZIndex } else w).isMinimized
        = w.isMinimized := by split <;> rfl
    exact ⟨w2, hmem, h1.trans hid, h2.trans happ, h3.trans hfp, h4.trans hmin⟩

lemma length_minimizeFoldList (s : OSState) (gs : List String) :
    ∀ acc : List WindowInstance × List String × Bool,
      ((gs.foldl (minimizeFold s) acc).1).length = acc.1.length := by
  induction gs with
  | nil => intro acc; rfl
  | cons g gs ih =>
    intro acc
    rw [List.foldl_cons, ih]
    unfold minimizeFold
    split
    · rfl
    · exact List.length_map _ _

lemma length_bumpFoldList (s : OSState) (fids : List String) :
    ∀ l : List WindowInstance, (fids.foldl (bumpFold s) l).length = l.length := by
  induction fids with
  | nil => intro l; rfl
  | cons f fids ih =>
    intro l
    rw [List.foldl_cons, ih]
    exact List.length_map _ _

lemma length_toggleMinimize (id : String) (s : OSState) :
    (toggleMinimize id s).windows.length = s.windows.length := by
  show ((minimizeRun s id).2.1.foldl (bumpFold s) (minimizeRun s id).1).length = _
  rw [length_bumpFoldList]
  exact length_minimizeFoldList s (pairGroup s id) (s.windows, [], false)

lemma length_focusWindow (id : String) (s : OSState) :
    (focusWindow id s).windows.length = s.windows.length := by
  unfold focusWindow
  split
  · rfl
  · exact List.length_map _ _

lemma nwid_focusWindow (id : String) (s : OSState) :
    (focusWindow id s).nextWindowId = s.nextWindowId := by
  unfold focusWindow
  split <;> rfl

lemma focusWindow_active (id : String) (s : OSState) :
    (focusWindow id s).activeWindowId = some id := by
  unfold focusWindow
  split
  · rename_i hcond
    exact hcond.1
  · rfl

lemma focusWindow_mem_image (id : String) (s : OSState) {w : WindowInstance}
    (hw : w ∈ s.windows) :
    ∃ w2 ∈ (focusWindow id s).windows,
      w2.id = w.id ∧ w2.appId = w.appId ∧ w2.filePath = w.filePath ∧
        w2.isMinimized = w.isMinimized := by
  unfold focusWindow
  split
  · exact ⟨w, hw, rfl, rfl, rfl, rfl⟩
  · refine ⟨_, List.mem_map.mpr ⟨w, hw, rfl⟩, ?_, ?_, ?_, ?_⟩ <;> split <;> rfl

/-- The existing instance's descendant after the un-minimize path: it
keeps its id, application and payload, and is no longer minimized. -/
lemma toggleMinimize_self_unminimized {s : OSState} (hinv : StateInv s)
    {w0 : WindowInstance} (hw0 : w0 ∈ s.windows) (hmin : w0.isMinimized = true) :
    ∃ w2 ∈ (toggleMinimize w0.id s).windows,
      w2.id = w0.id ∧ w2.appId = w0.appId ∧ w2.filePath = w0.filePath ∧
        w2.isMinimized = false := by
  have hnd := pairGroup_nodup hinv w0.id
  obtain ⟨hrw, -⟩ := minimizeRun_spec w0.id hnd
  have hwflip : flipMin w0 ∈ (minimizeRun s w0.id).1 := by
    rw [hrw]
    refine List.mem_map.mpr ⟨w0, hw0, ?_⟩
    rw [if_pos (contains_iff_mem.mpr (mem_pairGroup_self s w0.id))]
  obtain ⟨w2, hmem, h1, h2, h3, h4⟩ :=
    bumpFoldList_mem s ((minimizeRun s w0.id).2.1) _ _ hwflip
  refine ⟨w2, hmem, h1, h2, h3, ?_⟩
  rw [h4]
  simp [flipMin, hmin]

lemma nwid_toggleMinimize (id : String) (s : OSState) :
    (toggleMinimize id s).nextWindowId = s.nextWindowId := rfl

/-- C6: for every sequence whose `openApp` calls on application `a` all
carry a disabled multi-instance flag, at most one window of `a` exists;
a further `openApp` on `a` creates no window (registry length and the
window-id counter are unchanged), overwrites the existing instance's
`filePath` when one is supplied, focuses the existing instance when it
is not minimized, and un-minimizes it (preserving id, app and payload)
when it is — though in the minimized case the focus may land on a pair
partner rather than on the instance itself (see the counterexample). -/
theorem C6_single_instance {a : String} {s : OSState} (h : ReachableSI a s)
    (app : AppDefinition) (fp : Option String) (iw ihh : Int)
    (hida : app.id = a) (hmulti : app.allowMultiInstance = false)
    {w0 : WindowInstance} (hw0 : w0 ∈ s.windows) (hw0a : w0.appId = a) :
    appCount a s.windows ≤ 1 ∧
    (openApp app fp iw ihh s).windows.length = s.windows.length ∧
    (openApp app fp iw ihh s).nextWindowId = s.nextWindowId ∧
    (∀ fpath, fp = some fpath →
      ∃ w2 ∈ (openApp app fp iw ihh s).windows,
        w2.id = w0.id ∧ w2.appId = a ∧ w2.filePath = some fpath) ∧
    (w0.isMinimized = false →
      (openApp app fp iw ihh s).activeWindowId = some w0.id) ∧
    (w0.isMinimized = true →
      ∃ w2 ∈ (openApp app fp iw ihh s).windows,
        w2.id = w0.id ∧ w2.appId = a ∧ w2.isMinimized = false) := by
  have hcount := appCountSI_le_one h
  have hcount2 : s.windows.countP (fun w => w.appId == a) ≤ 1 := hcount
  have hpred0 : (fun win : WindowInstance =>
      win.appId == app.id && !app.allowMultiInstance) w0 = true := by
    simp [hida, hmulti, hw0a]
  have hfind : s.windows.find?
      (fun win => win.appId == app.id && !app.allowMultiInstance) = some w0 := by
    cases hf : s.windows.find?
        (fun win => win.appId == app.id && !app.allowMultiInstance) with
    | none => exact absurd hpred0 (List.find?_eq_none.mp hf w0 hw0)
    | some ex =>
      have hexmem := List.mem_of_find?_eq_some hf
      have hexpred := List.find?_some hf
      have h1 : ex.appId = app.id := by simpa [hmulti] using hexpred
      have hexa : (fun w : WindowInstance => w.appId == a) ex = true := by
        simp [h1, hida]
      have hw0p : (fun w : WindowInstance => w.appId == a) w0 = true := by
        simp [hw0a]
      rw [eq_of_countP_le_one hcount2 hexmem hw0 hexa hw0p]
  refine ⟨hcount, ?_, ?_, ?_, ?_, ?_⟩
  · unfold openApp
    rw [hfind]
    cases fp with
    | some fpath =>
      dsimp only
      rw [List.length_map]
      by_cases hm : w0.isMinimized = true
      · rw [if_pos hm]
        exact length_toggleMinimize _ _
      · rw [if_neg hm]
        exact length_focusWindow _ _
    | none =>
      dsimp only
      by_cases hm : w0.isMinimized = true
      · rw [if_pos hm]
        exact length_toggleMinimize _ _
      · rw [if_neg hm]
        exact length_focusWindow _ _
  · unfold openApp
    rw [hfind]
    cases fp with
    | some fpath =>
      dsimp only
      by_cases hm : w0.isMinimized = true
      · rw [if_pos hm]
        exact nwid_toggleMinimize _ _
      · rw [if_neg hm]
        exact nwid_focusWindow _ _
    | none =>
      dsimp only
      by_cases hm : w0.isMinimized = true
      · rw [if_pos hm]
        exact nwid_toggleMinimize _ _
      · rw [if_neg hm]
        exact nwid_focusWindow _ _
  · intro fpath hfp
    subst hfp
    unfold openApp
    rw [hfind]
    dsimp only
    by_cases hm : w0.isMinimized = true
    · rw [if_pos hm]
      obtain ⟨w2, hmem, h1, h2, h3, h4⟩ :=
        toggleMinimize_self_unminimized (reachable_inv h) hw0 hm
      have hcond : (w2.id == w0.id) = true := by simp [h1]
      refine ⟨{ w2 with filePath := some fpath },
        List.mem_map.mpr ⟨w2, hmem, by simp [hcond]⟩, h1, h2.trans hw0a, rfl⟩
    · rw [if_neg hm]
      obtain ⟨w2, hmem, h1, h2, h3, h4⟩ := focusWindow_mem_image w0.id s hw0
      have hcond : (w2.id == w0.id) = true := by simp [h1]
      refine ⟨{ w2 with filePath := some fpath },
        List.mem_map.mpr ⟨w2, hmem, by simp [hcond]⟩, h1, h2.trans hw0a, rfl⟩
  · intro hm
    unfold openApp
    rw [hfind]
    cases fp with
    | some fpath =>
      dsimp only
      rw [if_neg (by simp [hm])]
      exact focusWindow_active w0.id s
    | none =>
      dsimp only
      rw [if_neg (by simp [hm])]
      exact focusWindow_active w0.id s
  · intro hm
    unfold openApp
    rw [hfind]
    cases fp with
    | some fpath =>
      dsimp only
      rw [if_pos hm]
      obtain ⟨w2, hmem, h1, h2, h3, h4⟩ :=
        toggleMinimize_self_unminimized (reachable_inv h) hw0 hm
      have hcond : (w2.id == w0.id) = true := by simp [h1]
      refine ⟨{ w2 with filePath := some fpath },
        List.mem_map.mpr ⟨w2, hmem, by simp [hcond]⟩, h1, h2.trans hw0a, h4⟩
    | none =>
      dsimp only
      rw [if_pos hm]
      obtain ⟨w2, hmem, h1, h2, h3, h4⟩ :=
        toggleMinimize_self_unminimized (reachable_inv h) hw0 hm
      exact ⟨w2, hmem, h1, h2.trans hw0a, h4⟩

/-- Counterexample to C6 as stated: in the reachable state `st5` the
single-instance `notes` app has its only window `win-0` minimized (and
paired with `win-1`); relaunching the app un-minimizes the pair but
focuses the partner `win-1`, not the existing `notes` instance. -/
theorem C6_relaunch_counterexample :
    ReachableSI "notes" st5 ∧
    notesApp.allowMultiInstance = false ∧
    (∃ w ∈ st5.windows, w.appId = "notes" ∧ w.id = "win-0" ∧ w.isMinimized = true) ∧
    (openApp notesApp none 1000 800 st5).activeWindowId = some "win-1" ∧
    (openApp notesApp none 1000 800 st5).activeWindowId ≠ some "win-0" := by
  refine ⟨?_, rfl, by decide, by decide, by decide⟩
  exact ReachableG.minimize_step "win-0"
    (ReachableG.completePairing_step "win-1"
      (ReachableG.startPairing_step "win-0"
        (ReachableG.open_step otherApp none 1000 800
          (ReachableG.open_step notesApp none 1000 800 ReachableG.init (by decide))
          (by decide))))

/-- Witness for C6 at the one-window state `st1`: relaunching `notes`
with a payload keeps a single window, creates nothing, focuses `win-0`
and overwrites the `filePath`. -/
theorem C6_single_instance_witness :
    notesApp.id = "notes" ∧ notesApp.allowMultiInstance = false ∧
    notesWin1 ∈ st1.windows ∧ notesWin1.appId = "notes" ∧
    (appCount "notes" st1.windows ≤ 1 ∧
     (openApp notesApp (some "a.txt") 1000 800 st1).windows.length
        = st1.windows.length ∧
     (openApp notesApp (some "a.txt") 1000 800 st1).nextWindowId
        = st1.nextWindowId ∧
     (∀ fpath, (some "a.txt" : Option String) = some fpath →
       ∃ w2 ∈ (openApp notesApp (some "a.txt") 1000 800 st1).windows,
         w2.id = notesWin1.id ∧ w2.appId = "notes" ∧ w2.filePath = some fpath) ∧
     (notesWin1.isMinimized = false →
       (openApp notesApp (some "a.txt") 1000 800 st1).activeWindowId
          = some notesWin1.id) ∧
     (notesWin1.isMinimized = true →
       ∃ w2 ∈ (openApp notesApp (some "a.txt") 1000 800 st1).windows,
         w2.id = notesWin1.id ∧ w2.appId = "notes" ∧ w2.isMinimized = false)) :=
  ⟨rfl, rfl, by decide, rfl,
    C6_single_instance
      (ReachableG.open_step notesApp none 1000 800 ReachableG.init (by decide))
      notesApp (some "a.txt") 1000 800 rfl rfl (by decide) rfl⟩
